import Mathlib

/-!
Shallow embedding of the secp256k1 finite-field and curve-point code
(`src/finite_fields.rs`, `src/point.rs`) and proofs of the specification
claims about it.

Conventions of the embedding:
* Rust `BigInt` is modelled by `ℤ`; the Rust `%` operator (truncated
  remainder, sign of the dividend) is modelled by `Int.tmod`.
* `BigInt::modpow` (which always returns a value in `[0, m)` for a
  positive modulus and non-negative base) is modelled by `modpow`,
  a binary-exponentiation function, mirroring its actual algorithm.
* Fallible Rust code is modelled by the `Res` type: `Res.ok` is a normal
  return, `Res.err` models `Result::Err` (a recoverable failure surfaced
  to the caller), and `Res.panic` models a Rust `panic` (an unrecoverable
  abort).  Code that cannot abort is modelled by plain functions.
-/

set_option maxRecDepth 8000

namespace Secp256k1

/-- Outcome of running a piece of Rust code: a value, a recoverable
`Result::Err`, or an unrecoverable abort. -/
inductive Res (α : Type) where
  | ok : α → Res α
  | err : String → Res α
  | panic : String → Res α
deriving DecidableEq

/-- Sequencing of fallible computations: `Err` and aborts propagate. -/
def Res.bind {α β : Type} : Res α → (α → Res β) → Res β
  | .ok a, f => f a
  | .err s, _ => .err s
  | .panic s, _ => .panic s

/-- Res.isOk is true exactly on normal returns. -/
def Res.isOk {α : Type} : Res α → Bool
  | .ok _ => true
  | _ => false

/-- The secp256k1 prime `p = 2^256 - 2^32 - 977`, the global `PRIME`
constant of `finite_fields.rs`, as a natural number. -/
def Pn : ℕ := 0xfffffffffffffffffffffffffffffffffffffffffffffffffffffffefffffc2f

/-- The secp256k1 prime as an integer (the code works with `BigInt`). -/
def P : ℤ := 0xfffffffffffffffffffffffffffffffffffffffffffffffffffffffefffffc2f

/-- Fuel-indexed binary modular exponentiation on naturals; with enough
fuel it computes `b ^ e % m`.  This mirrors the square-and-multiply
algorithm of `BigInt::modpow`. -/
def powModNat : ℕ → ℕ → ℕ → ℕ → ℕ
  | 0, _, _, m => 1 % m
  | fuel + 1, b, e, m =>
    if e = 0 then 1 % m
    else
      let h := powModNat fuel (b * b % m) (e / 2) m
      if e % 2 = 1 then h * b % m else h

/-- Model of `BigInt::modpow(self, exponent, modulus)` for the uses in this
code base: the base is always in `[0, m)` and the exponent below `2^300`
(every exponent used is reduced below `p`), so 300 squarings of fuel always
suffice and the result is `b ^ e mod m`, in `[0, m)`. -/
def modpow (b e m : ℤ) : ℤ := (powModNat 300 b.toNat e.toNat m.toNat : ℕ)

/-- Model of `struct FieldElement { num: BigInt }`. -/
structure FieldElement where
  num : ℤ
deriving DecidableEq

/-- Model of `FieldElement::new`: fails with an `OutOfRange`-style error
when `num` is negative or `>= p`. -/
def FieldElement.new (num : ℤ) : Res FieldElement :=
  if num < 0 ∨ P ≤ num then
    .err ("Number " ++ toString num ++ " not in the field range 0 to " ++
      toString (P - 1))
  else .ok ⟨num⟩

/-- Model of `FieldElement::zero()`. -/
def FieldElement.zero : FieldElement := ⟨0⟩

/-- Model of `FieldElement::one()`. -/
def FieldElement.one : FieldElement := ⟨1⟩

/-- Model of `FieldElement::inverse`: panics on the zero element, otherwise
computes `a^(p-2) mod p` by modular exponentiation. -/
def FieldElement.inverse (a : FieldElement) : Res FieldElement :=
  if a.num = 0 then
    .panic "Division by zero: no multiplicative inverse exists"
  else .ok ⟨modpow a.num (P - 2) P⟩

/-- The non-negative-exponent branch of `FieldElement::pow`: reduce the
exponent mod `p - 1`, then `modpow`. -/
def FieldElement.powAux (a : FieldElement) (e : ℤ) : FieldElement :=
  ⟨modpow a.num (Int.tmod e (P - 1)) P⟩

/-- Model of `FieldElement::pow`.  For a negative exponent the code takes
the inverse (which can abort on zero) and recurses with the exponent
`|e| mod (p-1)`; that recursive call has a non-negative exponent, so it
immediately takes the other branch, which is `powAux`.  The one-level
recursion of the source is therefore written out directly. -/
def FieldElement.pow (a : FieldElement) (e : ℤ) : Res FieldElement :=
  if e < 0 then
    (a.inverse).bind fun i => .ok (i.powAux (Int.tmod (-e) (P - 1)))
  else .ok (a.powAux e)

/-- Model of `FieldElement::negate`: `(p - a.num) % p`.  The source wraps
the result in `FieldElement::new(..).unwrap()`, which never aborts for an
in-range input (`negate_new_ok` below). -/
def FieldElement.negate (a : FieldElement) : FieldElement :=
  ⟨Int.tmod (P - a.num) P⟩

/-- Model of `Add for &FieldElement`: one conditional subtraction of `p`. -/
def FieldElement.add (a b : FieldElement) : FieldElement :=
  let result := a.num + b.num
  ⟨if P ≤ result then result - P else result⟩

/-- Model of `Sub for &FieldElement`: one conditional addition of `p`. -/
def FieldElement.sub (a b : FieldElement) : FieldElement :=
  let result := a.num - b.num
  ⟨if result < 0 then result + P else result⟩

/-- Model of `Mul for &FieldElement`: full product then `%` (both factors
are non-negative there, so truncated and Euclidean remainder agree). -/
def FieldElement.mul (a b : FieldElement) : FieldElement :=
  ⟨Int.tmod (a.num * b.num) P⟩

/-- Model of `Mul<&FieldElement> for BigInt` (`scalar_mul` of the spec):
`(coeff * a.num) % p` with Rust's truncated `%`. -/
def scalarMulFE (coeff : ℤ) (a : FieldElement) : FieldElement :=
  ⟨Int.tmod (coeff * a.num) P⟩

/-- Model of `Div for &FieldElement`: multiply by the inverse of the
divisor; the inverse can abort on zero and that abort propagates. -/
def FieldElement.div (a b : FieldElement) : Res FieldElement :=
  (b.inverse).bind fun i => .ok (a.mul i)

/-- FieldElement invariant from the source documentation:
`0 <= num < p`. -/
def FieldElement.Valid (a : FieldElement) : Prop := 0 ≤ a.num ∧ a.num < P

instance (a : FieldElement) : Decidable a.Valid := by
  unfold FieldElement.Valid; infer_instance

/-- Hexadecimal digit characters used by Rust's `{:x}` formatting. -/
def hexDigit (n : ℕ) : Char :=
  if n < 10 then Char.ofNat (48 + n) else Char.ofNat (87 + n)

/-- Model of Rust's `{:064x}` formatting for the values in this code base
(all are in `[0, 16^64)`): 64 hex digits, zero padded. -/
def hex64 (n : ℤ) : String :=
  String.mk ((List.range 64).map fun i => hexDigit (n.toNat / 16 ^ (63 - i) % 16))

/-- Model of `Display for FieldElement`. -/
def FieldElement.display (a : FieldElement) : String :=
  "FieldElement_0x" ++ hex64 a.num ++ "_(mod 0x" ++ hex64 P ++ ")"

/-- Model of `enum Point`. -/
inductive Point where
  | Infinity : Point
  | Coordinates (x y : FieldElement) : Point
deriving DecidableEq

/-- The curve constant `SECP256K1_B = FieldElement(7)`. -/
def SECP256K1_B : FieldElement := ⟨7⟩

/-- The constant `TWO = FieldElement(2)`. -/
def TWO : FieldElement := ⟨2⟩

/-- The constant `THREE = FieldElement(3)`. -/
def THREE : FieldElement := ⟨3⟩

/-- The group order `SECP256K1_N`. -/
def SECP256K1_N : ℤ :=
  0xfffffffffffffffffffffffffffffffffffffffffffffffffffffffebaaedce6af48a03bbfd25e8cd0364141

/-- The generator point `G` (both coordinates are in range and on the
curve; `G_new_ok` below shows `Point::new` accepts them). -/
def G : Point :=
  .Coordinates
    ⟨0x79be667ef9dcbbac55a06295ce870b07029bfcdb2dce28d959f2815b16f81798⟩
    ⟨0x483ada7726a3c4655da4fbfc0e1108a8fd17b448a68554199c47d08ffb10d4b8⟩

/-- The message built by `Point::new` when the curve equation fails, via
`format!("Point ({}, {}) is not on the secp256k1 curve", x, y)` with the
`Display` rendering of the two coordinates. -/
def notOnCurveMsg (x y : FieldElement) : String :=
  "Point (" ++ x.display ++ ", " ++ y.display ++ ") is not on the secp256k1 curve"

/-- The message built by `Point::new` when exactly one coordinate is
present. -/
def mismatchedMsg : String :=
  "Invalid point: both coordinates must be Some or both must be None"

/-- Model of `Point::new`. -/
def Point.new (x y : Option FieldElement) : Res Point :=
  match x, y with
  | none, none => .ok .Infinity
  | some x, some y =>
    let left := y.powAux 2
    let right := (x.powAux 3).add SECP256K1_B
    if left = right then .ok (.Coordinates x y)
    else .err (notOnCurveMsg x y)
  | some _, none => .err mismatchedMsg
  | none, some _ => .err mismatchedMsg

/-- Model of `Point::point_double`.  The division can abort (it reaches
`FieldElement::inverse`), so the result is a `Res`. -/
def Point.point_double (p : Point) : Res Point :=
  match p with
  | .Coordinates x y =>
    if y = FieldElement.zero then .ok .Infinity
    else
      let numerator := THREE.mul (x.powAux 2)
      let denominator := TWO.mul y
      (FieldElement.div numerator denominator).bind fun s =>
        let x3 := (s.powAux 2).sub (x.add x)
        let x_minus_x3 := x.sub x3
        let s_times_diff := s.mul x_minus_x3
        let y3 := s_times_diff.sub y
        .ok (.Coordinates x3 y3)
  | .Infinity => .ok .Infinity

/-- Model of `Point::point_add_distinct`. -/
def Point.point_add_distinct (p other : Point) : Res Point :=
  match p, other with
  | .Coordinates x1 y1, .Coordinates x2 y2 =>
    (FieldElement.div (y2.sub y1) (x2.sub x1)).bind fun s =>
      let s_squared := s.powAux 2
      let s_squared_minus_x1 := s_squared.sub x1
      let x3 := s_squared_minus_x1.sub x2
      let x1_minus_x3 := x1.sub x3
      let s_times_diff := s.mul x1_minus_x3
      let y3 := s_times_diff.sub y1
      .ok (.Coordinates x3 y3)
  | _, _ => .ok .Infinity

/-- Model of `Add for &Point`. -/
def Point.add (p rhs : Point) : Res Point :=
  match p, rhs with
  | .Infinity, q => .ok q
  | q, .Infinity => .ok q
  | .Coordinates x1 y1, .Coordinates x2 y2 =>
    if x1 = x2 then
      if y1 = y2 then Point.point_double (.Coordinates x1 y1)
      else .ok .Infinity
    else Point.point_add_distinct (.Coordinates x1 y1) (.Coordinates x2 y2)

/-- The double-and-add loop of `Mul<&BigInt> for &Point`, entered with the
scalar already reduced into `[0, N)` (hence a natural number): while
`k > 0`, add `current` into `result` when the low bit is set, then double
`current` and shift `k` right. -/
def Point.scalarLoop (result current : Point) (k : ℕ) : Res Point :=
  if 0 < k then
    (if k % 2 = 1 then Point.add result current else .ok result).bind
      fun result' =>
        (Point.add current current).bind fun current' =>
          Point.scalarLoop result' current' (k / 2)
  else .ok result
termination_by k
decreasing_by exact Nat.div_lt_self (by omega) (by omega)

/-- Model of `Mul<&BigInt> for &Point`: reduce the scalar with Rust's
truncated `%` by the group order, correct a negative remainder by adding
`N`, then run the double-and-add loop. -/
def Point.mul (p : Point) (rhs : ℤ) : Res Point :=
  let k := Int.tmod rhs SECP256K1_N
  let k := if k < 0 then k + SECP256K1_N else k
  Point.scalarLoop .Infinity p k.toNat

/-- Range validity of a point: both coordinates satisfy the FieldElement
invariant (nothing about the curve equation). -/
def Point.RangeValid : Point → Prop
  | .Infinity => True
  | .Coordinates x y => x.Valid ∧ y.Valid

/-- Validity of a point as produced by `Point::new`: in range and, for a
coordinate point, the code's own curve-equation check holds. -/
def Point.Valid : Point → Prop
  | .Infinity => True
  | .Coordinates x y =>
    x.Valid ∧ y.Valid ∧ y.powAux 2 = (x.powAux 3).add SECP256K1_B

instance : ∀ p : Point, Decidable p.RangeValid
  | .Infinity => .isTrue trivial
  | .Coordinates _ _ => by unfold Point.RangeValid; infer_instance

instance : ∀ p : Point, Decidable p.Valid
  | .Infinity => .isTrue trivial
  | .Coordinates _ _ => by unfold Point.Valid; infer_instance

/-- Interpretation of a field element as a residue in `ZMod p`; used on the
specification side to reason about the modular arithmetic of the code. -/
def toZMod (a : FieldElement) : ZMod Pn := (a.num : ZMod Pn)

/-- The secp256k1 curve `y^2 = x^3 + 7` as a Weierstrass curve over the
field `ZMod p` (`a = 0`, `b = 7`); used on the specification side for
curve-equation reasoning. -/
def W : WeierstrassCurve.Affine (ZMod Pn) :=
  { a₁ := 0, a₂ := 0, a₃ := 0, a₄ := 0, a₆ := 7 }

/-! ### Modular exponentiation and the primality of `p` -/

theorem powModNat_lt (fuel b e m : ℕ) (hm : 0 < m) : powModNat fuel b e m < m := by
  induction fuel generalizing b e with
  | zero => exact Nat.mod_lt _ hm
  | succ fuel ih =>
    simp only [powModNat]
    split
    · exact Nat.mod_lt _ hm
    · split
      · exact Nat.mod_lt _ hm
      · exact ih _ _

theorem powModNat_correct (fuel b e m : ℕ) (_hm : 0 < m) (he : e < 2 ^ fuel) :
    powModNat fuel b e m = b ^ e % m := by
  induction fuel generalizing b e with
  | zero =>
    have h0 : e = 0 := by simpa using he
    subst h0
    simp [powModNat]
  | succ fuel ih =>
    simp only [powModNat]
    by_cases h0 : e = 0
    · subst h0
      simp
    · rw [if_neg h0]
      have hlt : e / 2 < 2 ^ fuel := by
        rw [Nat.div_lt_iff_lt_mul (by omega)]
        calc e < 2 ^ (fuel + 1) := he
          _ = 2 ^ fuel * 2 := by rw [pow_succ]
      rw [ih (b * b % m) (e / 2) hlt]
      have hsq : (b * b % m) ^ (e / 2) % m = (b * b) ^ (e / 2) % m :=
        (Nat.pow_mod (b * b) (e / 2) m).symm
      rw [hsq]
      have hbb : (b * b) ^ (e / 2) = b ^ (2 * (e / 2)) := by
        rw [two_mul, pow_add, mul_pow]
      by_cases h1 : e % 2 = 1
      · rw [if_pos h1, Nat.mod_mul_mod, hbb, ← pow_succ]
        have : 2 * (e / 2) + 1 = e := by omega
        rw [this]
      · rw [if_neg h1, hbb]
        have : 2 * (e / 2) = e := by omega
        rw [this]

theorem zmod_pow_eq (q a e : ℕ) (hq : 0 < q) (he : e < 2 ^ 300) :
    (a : ZMod q) ^ e = ((powModNat 300 a e q : ℕ) : ZMod q) := by
  rw [powModNat_correct 300 a e q hq he, ZMod.natCast_mod, Nat.cast_pow]

theorem zmod_pow_eq_one (q a e : ℕ) (hq : 0 < q) (he : e < 2 ^ 300)
    (h : powModNat 300 a e q = 1) : (a : ZMod q) ^ e = 1 := by
  rw [zmod_pow_eq q a e hq he, h, Nat.cast_one]

theorem zmod_pow_ne_one (q a e c : ℕ) (hq : 1 < q) (he : e < 2 ^ 300)
    (h : powModNat 300 a e q = c) (hc : c ≠ 1) (hcq : c < q) :
    (a : ZMod q) ^ e ≠ 1 := by
  rw [zmod_pow_eq q a e (by omega) he, h]
  intro hcon
  have h1 : ((c : ℕ) : ZMod q) = ((1 : ℕ) : ZMod q) := by simpa using hcon
  have h2 : c % q = 1 % q := (ZMod.natCast_eq_natCast_iff' c 1 q).mp h1
  rw [Nat.mod_eq_of_lt hcq, Nat.mod_eq_of_lt hq] at h2
  exact hc h2

theorem pratt_helper (q a : ℕ) (l : List ℕ) (hl : ∀ r ∈ l, r.Prime)
    (hprod : l.prod = q - 1) (ha : (a : ZMod q) ^ (q - 1) = 1)
    (hne : ∀ r ∈ l, (a : ZMod q) ^ ((q - 1) / r) ≠ 1) : q.Prime := by
  refine lucas_primality q a ha ?_
  intro r hr hdvd
  rw [← hprod] at hdvd
  exact hne r (mem_list_primes_of_dvd_prod hr.prime (fun x hx => (hl x hx).prime) hdvd)

theorem prime_2 : Nat.Prime 2 := by norm_num
theorem prime_3 : Nat.Prime 3 := by norm_num
theorem prime_5 : Nat.Prime 5 := by norm_num
theorem prime_7 : Nat.Prime 7 := by norm_num
theorem prime_11 : Nat.Prime 11 := by norm_num
theorem prime_29 : Nat.Prime 29 := by norm_num
theorem prime_31 : Nat.Prime 31 := by norm_num
theorem prime_53 : Nat.Prime 53 := by norm_num
theorem prime_419 : Nat.Prime 419 := by norm_num
theorem prime_971 : Nat.Prime 971 := by norm_num
theorem prime_1373 : Nat.Prime 1373 := by norm_num
theorem prime_1627 : Nat.Prime 1627 := by norm_num
theorem prime_2621 : Nat.Prime 2621 := by norm_num
theorem prime_2657 : Nat.Prime 2657 := by norm_num
theorem prime_4423 : Nat.Prime 4423 := by norm_num
theorem prime_5323 : Nat.Prime 5323 := by norm_num
theorem prime_7723 : Nat.Prime 7723 := by norm_num
theorem prime_13441 : Nat.Prime 13441 := by norm_num
theorem prime_24809 : Nat.Prime 24809 := by norm_num
theorem prime_41201 : Nat.Prime 41201 := by norm_num
theorem prime_96557 : Nat.Prime 96557 := by norm_num

theorem prime_20113 : Nat.Prime 20113 := by
  refine pratt_helper 20113 10 [2, 2, 2, 2, 3, 419] ?_ (by decide) ?_ ?_
  · intro r hr
    simp only [List.mem_cons, List.not_mem_nil, or_false] at hr
    rcases hr with rfl|rfl|rfl|rfl|rfl|rfl
    · exact prime_2
    · exact prime_2
    · exact prime_2
    · exact prime_2
    · exact prime_3
    · exact prime_419
  · exact zmod_pow_eq_one 20113 10 (20113 - 1) (by norm_num) (by norm_num) (by decide)
  · intro r hr
    simp only [List.mem_cons, List.not_mem_nil, or_false] at hr
    rcases hr with rfl|rfl|rfl|rfl|rfl|rfl
    · exact zmod_pow_ne_one 20113 10 ((20113 - 1) / 2) 20112 (by norm_num) (by norm_num) (by decide) (by norm_num) (by norm_num)
    · exact zmod_pow_ne_one 20113 10 ((20113 - 1) / 2) 20112 (by norm_num) (by norm_num) (by decide) (by norm_num) (by norm_num)
    · exact zmod_pow_ne_one 20113 10 ((20113 - 1) / 2) 20112 (by norm_num) (by norm_num) (by decide) (by norm_num) (by norm_num)
    · exact zmod_pow_ne_one 20113 10 ((20113 - 1) / 2) 20112 (by norm_num) (by norm_num) (by decide) (by norm_num) (by norm_num)
    · exact zmod_pow_ne_one 20113 10 ((20113 - 1) / 3) 5472 (by norm_num) (by norm_num) (by decide) (by norm_num) (by norm_num)
    · exact zmod_pow_ne_one 20113 10 ((20113 - 1) / 419) 4141 (by norm_num) (by norm_num) (by decide) (by norm_num) (by norm_num)

theorem prime_1206781 : Nat.Prime 1206781 := by
  refine pratt_helper 1206781 10 [2, 2, 3, 5, 20113] ?_ (by decide) ?_ ?_
  · intro r hr
    simp only [List.mem_cons, List.not_mem_nil, or_false] at hr
    rcases hr with rfl|rfl|rfl|rfl|rfl
    · exact prime_2
    · exact prime_2
    · exact prime_3
    · exact prime_5
    · exact prime_20113
  · exact zmod_pow_eq_one 1206781 10 (1206781 - 1) (by norm_num) (by norm_num) (by decide)
  · intro r hr
    simp only [List.mem_cons, List.not_mem_nil, or_false] at hr
    rcases hr with rfl|rfl|rfl|rfl|rfl
    · exact zmod_pow_ne_one 1206781 10 ((1206781 - 1) / 2) 1206780 (by norm_num) (by norm_num) (by decide) (by norm_num) (by norm_num)
    · exact zmod_pow_ne_one 1206781 10 ((1206781 - 1) / 2) 1206780 (by norm_num) (by norm_num) (by decide) (by norm_num) (by norm_num)
    · exact zmod_pow_ne_one 1206781 10 ((1206781 - 1) / 3) 608272 (by norm_num) (by norm_num) (by decide) (by norm_num) (by norm_num)
    · exact zmod_pow_ne_one 1206781 10 ((1206781 - 1) / 5) 1065415 (by norm_num) (by norm_num) (by decide) (by norm_num) (by norm_num)
    · exact zmod_pow_ne_one 1206781 10 ((1206781 - 1) / 20113) 888380 (by norm_num) (by norm_num) (by decide) (by norm_num) (by norm_num)

theorem prime_7240687 : Nat.Prime 7240687 := by
  refine pratt_helper 7240687 3 [2, 3, 1206781] ?_ (by decide) ?_ ?_
  · intro r hr
    simp only [List.mem_cons, List.not_mem_nil, or_false] at hr
    rcases hr with rfl|rfl|rfl
    · exact prime_2
    · exact prime_3
    · exact prime_1206781
  · exact zmod_pow_eq_one 7240687 3 (7240687 - 1) (by norm_num) (by norm_num) (by decide)
  · intro r hr
    simp only [List.mem_cons, List.not_mem_nil, or_false] at hr
    rcases hr with rfl|rfl|rfl
    · exact zmod_pow_ne_one 7240687 3 ((7240687 - 1) / 2) 7240686 (by norm_num) (by norm_num) (by decide) (by norm_num) (by norm_num)
    · exact zmod_pow_ne_one 7240687 3 ((7240687 - 1) / 3) 6501936 (by norm_num) (by norm_num) (by decide) (by norm_num) (by norm_num)
    · exact zmod_pow_ne_one 7240687 3 ((7240687 - 1) / 1206781) 729 (by norm_num) (by norm_num) (by decide) (by norm_num) (by norm_num)

theorem prime_13331831 : Nat.Prime 13331831 := by
  refine pratt_helper 13331831 13 [2, 5, 971, 1373] ?_ (by decide) ?_ ?_
  · intro r hr
    simp only [List.mem_cons, List.not_mem_nil, or_false] at hr
    rcases hr with rfl|rfl|rfl|rfl
    · exact prime_2
    · exact prime_5
    · exact prime_971
    · exact prime_1373
  · exact zmod_pow_eq_one 13331831 13 (13331831 - 1) (by norm_num) (by norm_num) (by decide)
  · intro r hr
    simp only [List.mem_cons, List.not_mem_nil, or_false] at hr
    rcases hr with rfl|rfl|rfl|rfl
    · exact zmod_pow_ne_one 13331831 13 ((13331831 - 1) / 2) 13331830 (by norm_num) (by norm_num) (by decide) (by norm_num) (by norm_num)
    · exact zmod_pow_ne_one 13331831 13 ((13331831 - 1) / 5) 1325729 (by norm_num) (by norm_num) (by decide) (by norm_num) (by norm_num)
    · exact zmod_pow_ne_one 13331831 13 ((13331831 - 1) / 971) 54862 (by norm_num) (by norm_num) (by decide) (by norm_num) (by norm_num)
    · exact zmod_pow_ne_one 13331831 13 ((13331831 - 1) / 1373) 1273336 (by norm_num) (by norm_num) (by decide) (by norm_num) (by norm_num)

theorem prime_107590001 : Nat.Prime 107590001 := by
  refine pratt_helper 107590001 3 [2, 2, 2, 2, 5, 5, 5, 5, 7, 29, 53] ?_ (by decide) ?_ ?_
  · intro r hr
    simp only [List.mem_cons, List.not_mem_nil, or_false] at hr
    rcases hr with rfl|rfl|rfl|rfl|rfl|rfl|rfl|rfl|rfl|rfl|rfl
    · exact prime_2
    · exact prime_2
    · exact prime_2
    · exact prime_2
    · exact prime_5
    · exact prime_5
    · exact prime_5
    · exact prime_5
    · exact prime_7
    · exact prime_29
    · exact prime_53
  · exact zmod_pow_eq_one 107590001 3 (107590001 - 1) (by norm_num) (by norm_num) (by decide)
  · intro r hr
    simp only [List.mem_cons, List.not_mem_nil, or_false] at hr
    rcases hr with rfl|rfl|rfl|rfl|rfl|rfl|rfl|rfl|rfl|rfl|rfl
    · exact zmod_pow_ne_one 107590001 3 ((107590001 - 1) / 2) 107590000 (by norm_num) (by norm_num) (by decide) (by norm_num) (by norm_num)
    · exact zmod_pow_ne_one 107590001 3 ((107590001 - 1) / 2) 107590000 (by norm_num) (by norm_num) (by decide) (by norm_num) (by norm_num)
    · exact zmod_pow_ne_one 107590001 3 ((107590001 - 1) / 2) 107590000 (by norm_num) (by norm_num) (by decide) (by norm_num) (by norm_num)
    · exact zmod_pow_ne_one 107590001 3 ((107590001 - 1) / 2) 107590000 (by norm_num) (by norm_num) (by decide) (by norm_num) (by norm_num)
    · exact zmod_pow_ne_one 107590001 3 ((107590001 - 1) / 5) 67174630 (by norm_num) (by norm_num) (by decide) (by norm_num) (by norm_num)
    · exact zmod_pow_ne_one 107590001 3 ((107590001 - 1) / 5) 67174630 (by norm_num) (by norm_num) (by decide) (by norm_num) (by norm_num)
    · exact zmod_pow_ne_one 107590001 3 ((107590001 - 1) / 5) 67174630 (by norm_num) (by norm_num) (by decide) (by norm_num) (by norm_num)
    · exact zmod_pow_ne_one 107590001 3 ((107590001 - 1) / 5) 67174630 (by norm_num) (by norm_num) (by decide) (by norm_num) (by norm_num)
    · exact zmod_pow_ne_one 107590001 3 ((107590001 - 1) / 7) 37492364 (by norm_num) (by norm_num) (by decide) (by norm_num) (by norm_num)
    · exact zmod_pow_ne_one 107590001 3 ((107590001 - 1) / 29) 32711690 (by norm_num) (by norm_num) (by decide) (by norm_num) (by norm_num)
    · exact zmod_pow_ne_one 107590001 3 ((107590001 - 1) / 53) 15240736 (by norm_num) (by norm_num) (by decide) (by norm_num) (by norm_num)

theorem prime_173378833005251801 : Nat.Prime 173378833005251801 := by
  refine pratt_helper 173378833005251801 6 [2, 2, 2, 5, 5, 2621, 24809, 13331831] ?_ (by decide) ?_ ?_
  · intro r hr
    simp only [List.mem_cons, List.not_mem_nil, or_false] at hr
    rcases hr with rfl|rfl|rfl|rfl|rfl|rfl|rfl|rfl
    · exact prime_2
    · exact prime_2
    · exact prime_2
    · exact prime_5
    · exact prime_5
    · exact prime_2621
    · exact prime_24809
    · exact prime_13331831
  · exact zmod_pow_eq_one 173378833005251801 6 (173378833005251801 - 1) (by norm_num) (by norm_num) (by decide)
  · intro r hr
    simp only [List.mem_cons, List.not_mem_nil, or_false] at hr
    rcases hr with rfl|rfl|rfl|rfl|rfl|rfl|rfl|rfl
    · exact zmod_pow_ne_one 173378833005251801 6 ((173378833005251801 - 1) / 2) 173378833005251800 (by norm_num) (by norm_num) (by decide) (by norm_num) (by norm_num)
    · exact zmod_pow_ne_one 173378833005251801 6 ((173378833005251801 - 1) / 2) 173378833005251800 (by norm_num) (by norm_num) (by decide) (by norm_num) (by norm_num)
    · exact zmod_pow_ne_one 173378833005251801 6 ((173378833005251801 - 1) / 2) 173378833005251800 (by norm_num) (by norm_num) (by decide) (by norm_num) (by norm_num)
    · exact zmod_pow_ne_one 173378833005251801 6 ((173378833005251801 - 1) / 5) 152071994513768143 (by norm_num) (by norm_num) (by decide) (by norm_num) (by norm_num)
    · exact zmod_pow_ne_one 173378833005251801 6 ((173378833005251801 - 1) / 5) 152071994513768143 (by norm_num) (by norm_num) (by decide) (by norm_num) (by norm_num)
    · exact zmod_pow_ne_one 173378833005251801 6 ((173378833005251801 - 1) / 2621) 25743935490785551 (by norm_num) (by norm_num) (by decide) (by norm_num) (by norm_num)
    · exact zmod_pow_ne_one 173378833005251801 6 ((173378833005251801 - 1) / 24809) 5978649957832462 (by norm_num) (by norm_num) (by decide) (by norm_num) (by norm_num)
    · exact zmod_pow_ne_one 173378833005251801 6 ((173378833005251801 - 1) / 13331831) 17954474104786666 (by norm_num) (by norm_num) (by decide) (by norm_num) (by norm_num)

theorem prime_22149492674086928081353 : Nat.Prime 22149492674086928081353 := by
  refine pratt_helper 22149492674086928081353 5 [2, 2, 2, 3, 5323, 173378833005251801] ?_ (by decide) ?_ ?_
  · intro r hr
    simp only [List.mem_cons, List.not_mem_nil, or_false] at hr
    rcases hr with rfl|rfl|rfl|rfl|rfl|rfl
    · exact prime_2
    · exact prime_2
    · exact prime_2
    · exact prime_3
    · exact prime_5323
    · exact prime_173378833005251801
  · exact zmod_pow_eq_one 22149492674086928081353 5 (22149492674086928081353 - 1) (by norm_num) (by norm_num) (by decide)
  · intro r hr
    simp only [List.mem_cons, List.not_mem_nil, or_false] at hr
    rcases hr with rfl|rfl|rfl|rfl|rfl|rfl
    · exact zmod_pow_ne_one 22149492674086928081353 5 ((22149492674086928081353 - 1) / 2) 22149492674086928081352 (by norm_num) (by norm_num) (by decide) (by norm_num) (by norm_num)
    · exact zmod_pow_ne_one 22149492674086928081353 5 ((22149492674086928081353 - 1) / 2) 22149492674086928081352 (by norm_num) (by norm_num) (by decide) (by norm_num) (by norm_num)
    · exact zmod_pow_ne_one 22149492674086928081353 5 ((22149492674086928081353 - 1) / 2) 22149492674086928081352 (by norm_num) (by norm_num) (by decide) (by norm_num) (by norm_num)
    · exact zmod_pow_ne_one 22149492674086928081353 5 ((22149492674086928081353 - 1) / 3) 10043889752229528935999 (by norm_num) (by norm_num) (by decide) (by norm_num) (by norm_num)
    · exact zmod_pow_ne_one 22149492674086928081353 5 ((22149492674086928081353 - 1) / 5323) 6446620476143922066636 (by norm_num) (by norm_num) (by decide) (by norm_num) (by norm_num)
    · exact zmod_pow_ne_one 22149492674086928081353 5 ((22149492674086928081353 - 1) / 173378833005251801) 317195385910872261254 (by norm_num) (by norm_num) (by decide) (by norm_num) (by norm_num)

theorem prime_132896956044521568488119 : Nat.Prime 132896956044521568488119 := by
  refine pratt_helper 132896956044521568488119 6 [2, 3, 22149492674086928081353] ?_ (by decide) ?_ ?_
  · intro r hr
    simp only [List.mem_cons, List.not_mem_nil, or_false] at hr
    rcases hr with rfl|rfl|rfl
    · exact prime_2
    · exact prime_3
    · exact prime_22149492674086928081353
  · exact zmod_pow_eq_one 132896956044521568488119 6 (132896956044521568488119 - 1) (by norm_num) (by norm_num) (by decide)
  · intro r hr
    simp only [List.mem_cons, List.not_mem_nil, or_false] at hr
    rcases hr with rfl|rfl|rfl
    · exact zmod_pow_ne_one 132896956044521568488119 6 ((132896956044521568488119 - 1) / 2) 132896956044521568488118 (by norm_num) (by norm_num) (by decide) (by norm_num) (by norm_num)
    · exact zmod_pow_ne_one 132896956044521568488119 6 ((132896956044521568488119 - 1) / 3) 76725380987433565404982 (by norm_num) (by norm_num) (by decide) (by norm_num) (by norm_num)
    · exact zmod_pow_ne_one 132896956044521568488119 6 ((132896956044521568488119 - 1) / 22149492674086928081353) 46656 (by norm_num) (by norm_num) (by decide) (by norm_num) (by norm_num)

theorem prime_255515944373312847190720520512484175977 : Nat.Prime 255515944373312847190720520512484175977 := by
  refine pratt_helper 255515944373312847190720520512484175977 3 [2, 2, 2, 7, 7, 11, 1627, 2657, 4423, 41201, 96557, 7240687, 107590001] ?_ (by decide) ?_ ?_
  · intro r hr
    simp only [List.mem_cons, List.not_mem_nil, or_false] at hr
    rcases hr with rfl|rfl|rfl|rfl|rfl|rfl|rfl|rfl|rfl|rfl|rfl|rfl|rfl
    · exact prime_2
    · exact prime_2
    · exact prime_2
    · exact prime_7
    · exact prime_7
    · exact prime_11
    · exact prime_1627
    · exact prime_2657
    · exact prime_4423
    · exact prime_41201
    · exact prime_96557
    · exact prime_7240687
    · exact prime_107590001
  · exact zmod_pow_eq_one 255515944373312847190720520512484175977 3 (255515944373312847190720520512484175977 - 1) (by norm_num) (by norm_num) (by decide)
  · intro r hr
    simp only [List.mem_cons, List.not_mem_nil, or_false] at hr
    rcases hr with rfl|rfl|rfl|rfl|rfl|rfl|rfl|rfl|rfl|rfl|rfl|rfl|rfl
    · exact zmod_pow_ne_one 255515944373312847190720520512484175977 3 ((255515944373312847190720520512484175977 - 1) / 2) 255515944373312847190720520512484175976 (by norm_num) (by norm_num) (by decide) (by norm_num) (by norm_num)
    · exact zmod_pow_ne_one 255515944373312847190720520512484175977 3 ((255515944373312847190720520512484175977 - 1) / 2) 255515944373312847190720520512484175976 (by norm_num) (by norm_num) (by decide) (by norm_num) (by norm_num)
    · exact zmod_pow_ne_one 255515944373312847190720520512484175977 3 ((255515944373312847190720520512484175977 - 1) / 2) 255515944373312847190720520512484175976 (by norm_num) (by norm_num) (by decide) (by norm_num) (by norm_num)
    · exact zmod_pow_ne_one 255515944373312847190720520512484175977 3 ((255515944373312847190720520512484175977 - 1) / 7) 101630464857884484146913207008716355375 (by norm_num) (by norm_num) (by decide) (by norm_num) (by norm_num)
    · exact zmod_pow_ne_one 255515944373312847190720520512484175977 3 ((255515944373312847190720520512484175977 - 1) / 7) 101630464857884484146913207008716355375 (by norm_num) (by norm_num) (by decide) (by norm_num) (by norm_num)
    · exact zmod_pow_ne_one 255515944373312847190720520512484175977 3 ((255515944373312847190720520512484175977 - 1) / 11) 216514664320154426008163201710470464886 (by norm_num) (by norm_num) (by decide) (by norm_num) (by norm_num)
    · exact zmod_pow_ne_one 255515944373312847190720520512484175977 3 ((255515944373312847190720520512484175977 - 1) / 1627) 72473583126275438393254198129422586513 (by norm_num) (by norm_num) (by decide) (by norm_num) (by norm_num)
    · exact zmod_pow_ne_one 255515944373312847190720520512484175977 3 ((255515944373312847190720520512484175977 - 1) / 2657) 25264823290665569537380285172105507303 (by norm_num) (by norm_num) (by decide) (by norm_num) (by norm_num)
    · exact zmod_pow_ne_one 255515944373312847190720520512484175977 3 ((255515944373312847190720520512484175977 - 1) / 4423) 83399280779944061005050044694706920693 (by norm_num) (by norm_num) (by decide) (by norm_num) (by norm_num)
    · exact zmod_pow_ne_one 255515944373312847190720520512484175977 3 ((255515944373312847190720520512484175977 - 1) / 41201) 172827330636526207461984371528411705589 (by norm_num) (by norm_num) (by decide) (by norm_num) (by norm_num)
    · exact zmod_pow_ne_one 255515944373312847190720520512484175977 3 ((255515944373312847190720520512484175977 - 1) / 96557) 255259905881023646761568249610326048823 (by norm_num) (by norm_num) (by decide) (by norm_num) (by norm_num)
    · exact zmod_pow_ne_one 255515944373312847190720520512484175977 3 ((255515944373312847190720520512484175977 - 1) / 7240687) 31043399383638056505926561103262574803 (by norm_num) (by norm_num) (by decide) (by norm_num) (by norm_num)
    · exact zmod_pow_ne_one 255515944373312847190720520512484175977 3 ((255515944373312847190720520512484175977 - 1) / 107590001) 18335160587089267704563076742628378053 (by norm_num) (by norm_num) (by decide) (by norm_num) (by norm_num)

theorem prime_205115282021455665897114700593932402728804164701536103180137503955397371 : Nat.Prime 205115282021455665897114700593932402728804164701536103180137503955397371 := by
  refine pratt_helper 205115282021455665897114700593932402728804164701536103180137503955397371 10 [2, 3, 5, 29, 29, 31, 7723, 132896956044521568488119, 255515944373312847190720520512484175977] ?_ (by decide) ?_ ?_
  · intro r hr
    simp only [List.mem_cons, List.not_mem_nil, or_false] at hr
    rcases hr with rfl|rfl|rfl|rfl|rfl|rfl|rfl|rfl|rfl
    · exact prime_2
    · exact prime_3
    · exact prime_5
    · exact prime_29
    · exact prime_29
    · exact prime_31
    · exact prime_7723
    · exact prime_132896956044521568488119
    · exact prime_255515944373312847190720520512484175977
  · exact zmod_pow_eq_one 205115282021455665897114700593932402728804164701536103180137503955397371 10 (205115282021455665897114700593932402728804164701536103180137503955397371 - 1) (by norm_num) (by norm_num) (by decide)
  · intro r hr
    simp only [List.mem_cons, List.not_mem_nil, or_false] at hr
    rcases hr with rfl|rfl|rfl|rfl|rfl|rfl|rfl|rfl|rfl
    · exact zmod_pow_ne_one 205115282021455665897114700593932402728804164701536103180137503955397371 10 ((205115282021455665897114700593932402728804164701536103180137503955397371 - 1) / 2) 205115282021455665897114700593932402728804164701536103180137503955397370 (by norm_num) (by norm_num) (by decide) (by norm_num) (by norm_num)
    · exact zmod_pow_ne_one 205115282021455665897114700593932402728804164701536103180137503955397371 10 ((205115282021455665897114700593932402728804164701536103180137503955397371 - 1) / 3) 178616112238072933217230078226700686412819640559154366246118991325153614 (by norm_num) (by norm_num) (by decide) (by norm_num) (by norm_num)
    · exact zmod_pow_ne_one 205115282021455665897114700593932402728804164701536103180137503955397371 10 ((205115282021455665897114700593932402728804164701536103180137503955397371 - 1) / 5) 148667663605783182964533161827581554934625546150551877457291286907751879 (by norm_num) (by norm_num) (by decide) (by norm_num) (by norm_num)
    · exact zmod_pow_ne_one 205115282021455665897114700593932402728804164701536103180137503955397371 10 ((205115282021455665897114700593932402728804164701536103180137503955397371 - 1) / 29) 90719238424619861502781386762050866835022444605988461034414193158222234 (by norm_num) (by norm_num) (by decide) (by norm_num) (by norm_num)
    · exact zmod_pow_ne_one 205115282021455665897114700593932402728804164701536103180137503955397371 10 ((205115282021455665897114700593932402728804164701536103180137503955397371 - 1) / 29) 90719238424619861502781386762050866835022444605988461034414193158222234 (by norm_num) (by norm_num) (by decide) (by norm_num) (by norm_num)
    · exact zmod_pow_ne_one 205115282021455665897114700593932402728804164701536103180137503955397371 10 ((205115282021455665897114700593932402728804164701536103180137503955397371 - 1) / 31) 178914599646525377090000213924526954283063588893967770896141456545640969 (by norm_num) (by norm_num) (by decide) (by norm_num) (by norm_num)
    · exact zmod_pow_ne_one 205115282021455665897114700593932402728804164701536103180137503955397371 10 ((205115282021455665897114700593932402728804164701536103180137503955397371 - 1) / 7723) 123665784261542600597161422878187596862401757469595512553658861111742805 (by norm_num) (by norm_num) (by decide) (by norm_num) (by norm_num)
    · exact zmod_pow_ne_one 205115282021455665897114700593932402728804164701536103180137503955397371 10 ((205115282021455665897114700593932402728804164701536103180137503955397371 - 1) / 132896956044521568488119) 23464812984708083251961214877810561828785050182618072726888556255391050 (by norm_num) (by norm_num) (by decide) (by norm_num) (by norm_num)
    · exact zmod_pow_ne_one 205115282021455665897114700593932402728804164701536103180137503955397371 10 ((205115282021455665897114700593932402728804164701536103180137503955397371 - 1) / 255515944373312847190720520512484175977) 178266113035923784558209165568976194333480695760850831337861960477148809 (by norm_num) (by norm_num) (by decide) (by norm_num) (by norm_num)

theorem prime_115792089237316195423570985008687907853269984665640564039457584007908834671663 : Nat.Prime 115792089237316195423570985008687907853269984665640564039457584007908834671663 := by
  refine pratt_helper 115792089237316195423570985008687907853269984665640564039457584007908834671663 3 [2, 3, 7, 13441, 205115282021455665897114700593932402728804164701536103180137503955397371] ?_ (by decide) ?_ ?_
  · intro r hr
    simp only [List.mem_cons, List.not_mem_nil, or_false] at hr
    rcases hr with rfl|rfl|rfl|rfl|rfl
    · exact prime_2
    · exact prime_3
    · exact prime_7
    · exact prime_13441
    · exact prime_205115282021455665897114700593932402728804164701536103180137503955397371
  · exact zmod_pow_eq_one 115792089237316195423570985008687907853269984665640564039457584007908834671663 3 (115792089237316195423570985008687907853269984665640564039457584007908834671663 - 1) (by norm_num) (by norm_num) (by decide)
  · intro r hr
    simp only [List.mem_cons, List.not_mem_nil, or_false] at hr
    rcases hr with rfl|rfl|rfl|rfl|rfl
    · exact zmod_pow_ne_one 115792089237316195423570985008687907853269984665640564039457584007908834671663 3 ((115792089237316195423570985008687907853269984665640564039457584007908834671663 - 1) / 2) 115792089237316195423570985008687907853269984665640564039457584007908834671662 (by norm_num) (by norm_num) (by decide) (by norm_num) (by norm_num)
    · exact zmod_pow_ne_one 115792089237316195423570985008687907853269984665640564039457584007908834671663 3 ((115792089237316195423570985008687907853269984665640564039457584007908834671663 - 1) / 3) 60197513588986302554485582024885075108884032450952339817679072026166228089408 (by norm_num) (by norm_num) (by decide) (by norm_num) (by norm_num)
    · exact zmod_pow_ne_one 115792089237316195423570985008687907853269984665640564039457584007908834671663 3 ((115792089237316195423570985008687907853269984665640564039457584007908834671663 - 1) / 7) 73577166854750709961935200508434814177540983658115200205126683779095497532107 (by norm_num) (by norm_num) (by decide) (by norm_num) (by norm_num)
    · exact zmod_pow_ne_one 115792089237316195423570985008687907853269984665640564039457584007908834671663 3 ((115792089237316195423570985008687907853269984665640564039457584007908834671663 - 1) / 13441) 47069427835566023893842355796053529714200560266804286213968496489326012498751 (by norm_num) (by norm_num) (by decide) (by norm_num) (by norm_num)
    · exact zmod_pow_ne_one 115792089237316195423570985008687907853269984665640564039457584007908834671663 3 ((115792089237316195423570985008687907853269984665640564039457584007908834671663 - 1) / 205115282021455665897114700593932402728804164701536103180137503955397371) 15008666919421193757556023654256545850754027412553468855825889464239117716646 (by norm_num) (by norm_num) (by decide) (by norm_num) (by norm_num)

/-- The secp256k1 prime is prime (via a Pratt certificate chain checked by
`lucas_primality`). -/
theorem prime_P : Nat.Prime Pn :=
  prime_115792089237316195423570985008687907853269984665640564039457584007908834671663

/-! ### Facts about the constants and `modpow` -/

theorem P_pos : (0 : ℤ) < P := by decide

theorem P_cast : (Pn : ℤ) = P := rfl

theorem N_pos : (0 : ℤ) < SECP256K1_N := by decide

theorem modpow_nonneg (b e m : ℤ) : 0 ≤ modpow b e m := Int.ofNat_nonneg _

theorem modpow_lt_P (b e : ℤ) : modpow b e P < P := by
  have h := powModNat_lt 300 b.toNat e.toNat P.toNat (by decide)
  have h2 : (P.toNat : ℤ) = P := by decide
  unfold modpow
  omega

theorem modpow_eq (b e m : ℤ) (hb : 0 ≤ b) (he : 0 ≤ e) (hm : 0 < m)
    (heP : e < P) : modpow b e m = b ^ e.toNat % m := by
  unfold modpow
  have h1 : 0 < m.toNat := by omega
  have hc : (Pn : ℤ) = P := rfl
  have h2 : e.toNat < Pn := by omega
  have h3 : Pn < 2 ^ 300 := by norm_num [Pn]
  rw [powModNat_correct 300 b.toNat e.toNat m.toNat h1 (by omega)]
  push_cast
  rw [Int.toNat_of_nonneg hb, Int.toNat_of_nonneg hm.le]

/-! ### Value and range facts for the field operations -/

theorem add_spec (a b : FieldElement) (ha : a.Valid) (hb : b.Valid) :
    (a.add b).num = (a.num + b.num) % P ∧ (a.add b).Valid := by
  obtain ⟨ha0, ha1⟩ := ha
  obtain ⟨hb0, hb1⟩ := hb
  unfold FieldElement.add FieldElement.Valid
  simp only [P] at *
  refine ⟨?_, ?_, ?_⟩ <;> (split <;> omega)

theorem sub_spec (a b : FieldElement) (ha : a.Valid) (hb : b.Valid) :
    (a.sub b).num = (a.num - b.num) % P ∧ (a.sub b).Valid := by
  obtain ⟨ha0, ha1⟩ := ha
  obtain ⟨hb0, hb1⟩ := hb
  unfold FieldElement.sub FieldElement.Valid
  simp only [P] at *
  refine ⟨?_, ?_, ?_⟩ <;> (split <;> omega)

theorem mul_spec (a b : FieldElement) (ha : a.Valid) (hb : b.Valid) :
    (a.mul b).num = a.num * b.num % P ∧ (a.mul b).Valid := by
  have h0 : (0 : ℤ) ≤ a.num * b.num := mul_nonneg ha.1 hb.1
  have ht : Int.tmod (a.num * b.num) P = a.num * b.num % P :=
    Int.tmod_eq_emod h0 P_pos.le
  have h1 : a.num * b.num % P = (a.mul b).num := ht.symm
  unfold FieldElement.mul FieldElement.Valid
  refine ⟨ht, ?_, ?_⟩
  · rw [ht]
    exact Int.emod_nonneg _ (by have := P_pos; omega)
  · rw [ht]
    exact Int.emod_lt_of_pos _ P_pos

theorem negate_spec (a : FieldElement) (ha : a.Valid) :
    (a.negate).num = (-a.num) % P ∧ (a.negate).Valid := by
  obtain ⟨ha0, ha1⟩ := ha
  have h0 : (0 : ℤ) ≤ P - a.num := by omega
  have ht : Int.tmod (P - a.num) P = (P - a.num) % P :=
    Int.tmod_eq_emod h0 P_pos.le
  have he : (P - a.num) % P = (-a.num) % P := by
    have hr : P - a.num = -a.num + P * 1 := by ring
    rw [hr, Int.add_mul_emod_self_left]
  unfold FieldElement.negate FieldElement.Valid
  refine ⟨by rw [ht, he], ?_, ?_⟩
  · rw [ht]
    exact Int.emod_nonneg _ (by have := P_pos; omega)
  · rw [ht]
    exact Int.emod_lt_of_pos _ P_pos

theorem powAux_valid (a : FieldElement) (e : ℤ) : (a.powAux e).Valid :=
  ⟨modpow_nonneg _ _ _, modpow_lt_P _ _⟩

theorem powAux_spec (a : FieldElement) (e : ℤ) (ha : 0 ≤ a.num) (he : 0 ≤ e) :
    (a.powAux e).num = a.num ^ ((e % (P - 1)).toNat) % P := by
  have hP1 : (0 : ℤ) < P - 1 := by decide
  have ht : Int.tmod e (P - 1) = e % (P - 1) := Int.tmod_eq_emod he (by omega)
  have hr0 : 0 ≤ e % (P - 1) := Int.emod_nonneg _ (by omega)
  have hr1 : e % (P - 1) < P := by
    have := Int.emod_lt_of_pos e hP1
    omega
  unfold FieldElement.powAux
  rw [ht, modpow_eq _ _ _ ha hr0 P_pos hr1]

theorem inverse_ok (a : FieldElement) (h : a.num ≠ 0) :
    a.inverse = .ok ⟨modpow a.num (P - 2) P⟩ := by
  unfold FieldElement.inverse
  rw [if_neg h]

theorem inverse_valid (a : FieldElement) :
    (⟨modpow a.num (P - 2) P⟩ : FieldElement).Valid :=
  ⟨modpow_nonneg _ _ _, modpow_lt_P _ _⟩

theorem div_ok (a b : FieldElement) (hb : b.num ≠ 0) :
    FieldElement.div a b = .ok (a.mul ⟨modpow b.num (P - 2) P⟩) := by
  unfold FieldElement.div
  rw [inverse_ok b hb]
  rfl

/-! ### Interpretation in `ZMod p` -/

theorem toZMod_mk_emod (v : ℤ) : toZMod ⟨v % P⟩ = (v : ZMod Pn) := by
  have h := ZMod.intCast_mod v Pn
  rw [P_cast] at h
  exact h

theorem toZMod_ne_zero (a : FieldElement) (ha : a.Valid) (h : a.num ≠ 0) :
    toZMod a ≠ 0 := by
  unfold toZMod
  rw [Ne, ZMod.intCast_zmod_eq_zero_iff_dvd]
  intro hdvd
  have h1 : 0 < a.num := by rcases ha with ⟨h0, _⟩; omega
  have h2 := Int.le_of_dvd h1 hdvd
  rw [P_cast] at h2
  rcases ha with ⟨_, h3⟩
  omega

theorem toZMod_inj (a b : FieldElement) (ha : a.Valid) (hb : b.Valid)
    (h : toZMod a = toZMod b) : a = b := by
  unfold toZMod at h
  rw [ZMod.intCast_eq_intCast_iff'] at h
  rw [P_cast, Int.emod_eq_of_lt ha.1 ha.2, Int.emod_eq_of_lt hb.1 hb.2] at h
  cases a
  cases b
  simpa using h

theorem eq_emod_of_cast_eq {u v : ℤ} (h0 : 0 ≤ u) (h1 : u < P)
    (hc : ((u : ℤ) : ZMod Pn) = ((v : ℤ) : ZMod Pn)) : u = v % P := by
  rw [ZMod.intCast_eq_intCast_iff'] at hc
  rw [P_cast, Int.emod_eq_of_lt h0 h1] at hc
  exact hc

theorem toZMod_add (a b : FieldElement) (ha : a.Valid) (hb : b.Valid) :
    toZMod (a.add b) = toZMod a + toZMod b := by
  have h := (add_spec a b ha hb).1
  have h2 : a.add b = (⟨(a.num + b.num) % P⟩ : FieldElement) := by
    cases hab : a.add b
    simpa [hab] using h
  rw [h2, toZMod_mk_emod]
  unfold toZMod
  push_cast
  ring

theorem toZMod_sub (a b : FieldElement) (ha : a.Valid) (hb : b.Valid) :
    toZMod (a.sub b) = toZMod a - toZMod b := by
  have h := (sub_spec a b ha hb).1
  have h2 : a.sub b = (⟨(a.num - b.num) % P⟩ : FieldElement) := by
    cases hab : a.sub b
    simpa [hab] using h
  rw [h2, toZMod_mk_emod]
  unfold toZMod
  push_cast
  ring

theorem toZMod_mul (a b : FieldElement) (ha : a.Valid) (hb : b.Valid) :
    toZMod (a.mul b) = toZMod a * toZMod b := by
  have h := (mul_spec a b ha hb).1
  have h2 : a.mul b = (⟨a.num * b.num % P⟩ : FieldElement) := by
    cases hab : a.mul b
    simpa [hab] using h
  rw [h2, toZMod_mk_emod]
  unfold toZMod
  push_cast
  ring

theorem toZMod_negate (a : FieldElement) (ha : a.Valid) :
    toZMod (a.negate) = -toZMod a := by
  have h := (negate_spec a ha).1
  have h2 : a.negate = (⟨(-a.num) % P⟩ : FieldElement) := by
    cases hab : a.negate
    simpa [hab] using h
  rw [h2, toZMod_mk_emod]
  unfold toZMod
  push_cast
  ring

theorem toZMod_powAux_two (a : FieldElement) (ha : a.Valid) :
    toZMod (a.powAux 2) = toZMod a ^ 2 := by
  have h := powAux_spec a 2 ha.1 (by omega)
  have he : (((2 : ℤ) % (P - 1)).toNat) = 2 := by decide
  rw [he] at h
  have h2 : a.powAux 2 = (⟨a.num ^ 2 % P⟩ : FieldElement) := by
    cases hab : a.powAux 2
    simpa [hab] using h
  rw [h2, toZMod_mk_emod]
  unfold toZMod
  push_cast
  ring

theorem toZMod_powAux_three (a : FieldElement) (ha : a.Valid) :
    toZMod (a.powAux 3) = toZMod a ^ 3 := by
  have h := powAux_spec a 3 ha.1 (by omega)
  have he : (((3 : ℤ) % (P - 1)).toNat) = 3 := by decide
  rw [he] at h
  have h2 : a.powAux 3 = (⟨a.num ^ 3 % P⟩ : FieldElement) := by
    cases hab : a.powAux 3
    simpa [hab] using h
  rw [h2, toZMod_mk_emod]
  unfold toZMod
  push_cast
  ring

theorem zmod_pow_sub_two_inv (x : ZMod Pn) (hx : x ≠ 0) : x ^ (Pn - 2) = x⁻¹ := by
  haveI : Fact (Nat.Prime Pn) := ⟨prime_P⟩
  have h2 : 2 < Pn := by norm_num [Pn]
  have h1 : x ^ (Pn - 2) * x = 1 := by
    have hs : Pn - 2 + 1 = Pn - 1 := by omega
    rw [← pow_succ, hs]
    exact ZMod.pow_card_sub_one_eq_one hx
  calc x ^ (Pn - 2) = x ^ (Pn - 2) * (x * x⁻¹) := by rw [mul_inv_cancel₀ hx, mul_one]
    _ = x ^ (Pn - 2) * x * x⁻¹ := by ring
    _ = 1 * x⁻¹ := by rw [h1]
    _ = x⁻¹ := one_mul _

theorem toZMod_inverse (a : FieldElement) (ha : a.Valid) (h : a.num ≠ 0) :
    toZMod ⟨modpow a.num (P - 2) P⟩ = (toZMod a)⁻¹ := by
  have he : modpow a.num (P - 2) P = a.num ^ ((P - 2).toNat) % P :=
    modpow_eq _ _ _ ha.1 (by decide) P_pos (by decide)
  have h2 : (P - 2).toNat = Pn - 2 := by decide
  rw [he, h2, toZMod_mk_emod]
  unfold toZMod
  push_cast
  exact zmod_pow_sub_two_inv _ (toZMod_ne_zero a ha h)

/-! ### The curve equation in `ZMod p` and the group-law case analysis -/

theorem toZMod_B : toZMod SECP256K1_B = 7 := by
  unfold toZMod SECP256K1_B
  push_cast
  ring

theorem toZMod_TWO : toZMod TWO = 2 := by
  unfold toZMod TWO
  push_cast
  ring

theorem toZMod_THREE : toZMod THREE = 3 := by
  unfold toZMod THREE
  push_cast
  ring

theorem W_equation_iff (u v : ZMod Pn) : W.Equation u v ↔ v ^ 2 = u ^ 3 + 7 := by
  rw [WeierstrassCurve.Affine.equation_iff]
  show v ^ 2 + 0 * u * v + 0 * v = u ^ 3 + 0 * u ^ 2 + 0 * u + 7 ↔ _
  constructor <;> intro h <;> linear_combination h

theorem W_negY (u v : ZMod Pn) : W.negY u v = -v := by
  show -v - 0 * u - 0 = -v
  ring

theorem W_addX (u1 u2 L : ZMod Pn) : W.addX u1 u2 L = L ^ 2 - u1 - u2 := by
  show L ^ 2 + 0 * L - 0 - u1 - u2 = _
  ring

theorem W_addY (u1 u2 v1 L : ZMod Pn) :
    W.addY u1 u2 v1 L = L * (u1 - W.addX u1 u2 L) - v1 := by
  show -(L * (W.addX u1 u2 L - u1) + v1) - 0 * W.addX u1 u2 L - 0 = _
  ring

theorem curve_check_iff (x y : FieldElement) (hx : x.Valid) (hy : y.Valid) :
    (y.powAux 2 = (x.powAux 3).add SECP256K1_B) ↔
      W.Equation (toZMod x) (toZMod y) := by
  have hB : SECP256K1_B.Valid := by decide
  have hult : (x.powAux 3).Valid := powAux_valid x 3
  rw [W_equation_iff]
  constructor
  · intro h
    have h2 := congrArg toZMod h
    rw [toZMod_powAux_two y hy, toZMod_add _ _ hult hB, toZMod_powAux_three x hx,
      toZMod_B] at h2
    exact h2
  · intro h
    apply toZMod_inj _ _ (powAux_valid y 2) ((add_spec _ _ hult hB).2)
    rw [toZMod_powAux_two y hy, toZMod_add _ _ hult hB, toZMod_powAux_three x hx,
      toZMod_B]
    exact h

theorem sub_num_ne_zero (x1 x2 : FieldElement) (h1 : x1.Valid) (h2 : x2.Valid)
    (hne : x1 ≠ x2) : (x2.sub x1).num ≠ 0 := by
  have hnum : x1.num ≠ x2.num := by
    intro h
    apply hne
    cases x1
    cases x2
    simpa using h
  obtain ⟨a, b⟩ := h1
  obtain ⟨c, d⟩ := h2
  show (if x2.num - x1.num < 0 then x2.num - x1.num + P else x2.num - x1.num) ≠ 0
  have := P_pos
  split <;> omega

theorem two_mul_num_ne_zero (y : FieldElement) (hy : y.Valid) (h0 : y.num ≠ 0) :
    (TWO.mul y).num ≠ 0 := by
  have h := (mul_spec TWO y (by decide) hy).1
  rw [h]
  show (2 : ℤ) * y.num % P ≠ 0
  obtain ⟨hy0, hy1⟩ := hy
  have hP := P_pos
  have hodd : P % 2 = 1 := by decide
  by_cases hlt : 2 * y.num < P
  · rw [Int.emod_eq_of_lt (by omega) hlt]
    omega
  · have hsplit : 2 * y.num = (2 * y.num - P) + P * 1 := by ring
    rw [hsplit, Int.add_mul_emod_self_left,
      Int.emod_eq_of_lt (by omega) (by omega)]
    omega

theorem point_double_def (x y : FieldElement) (hy0 : y ≠ FieldElement.zero) :
    Point.point_double (.Coordinates x y) =
      (FieldElement.div (THREE.mul (x.powAux 2)) (TWO.mul y)).bind fun s =>
        .ok (.Coordinates ((s.powAux 2).sub (x.add x))
          ((s.mul (x.sub ((s.powAux 2).sub (x.add x)))).sub y)) := by
  show (if y = FieldElement.zero then Res.ok Point.Infinity
    else (FieldElement.div (THREE.mul (x.powAux 2)) (TWO.mul y)).bind fun s =>
      Res.ok (Point.Coordinates ((s.powAux 2).sub (x.add x))
        ((s.mul (x.sub ((s.powAux 2).sub (x.add x)))).sub y))) = _
  rw [if_neg hy0]

theorem double_ok_valid (x y : FieldElement) (hx : x.Valid) (hy : y.Valid)
    (hc : y.powAux 2 = (x.powAux 3).add SECP256K1_B) (hy0 : y ≠ FieldElement.zero) :
    ∃ s x3 y3 : FieldElement,
      Point.point_double (.Coordinates x y) = .ok (.Coordinates x3 y3) ∧
      (Point.Coordinates x3 y3).Valid ∧ s.Valid ∧
      toZMod s * (2 * toZMod y) = 3 * toZMod x ^ 2 ∧
      toZMod x3 = toZMod s ^ 2 - 2 * toZMod x ∧
      toZMod y3 = toZMod s * (toZMod x - toZMod x3) - toZMod y := by
  haveI : Fact (Nat.Prime Pn) := ⟨prime_P⟩
  have hynum : y.num ≠ 0 := by
    intro h
    exact hy0 (congrArg FieldElement.mk h)
  have hTWOv : TWO.Valid := by decide
  have hTHREEv : THREE.Valid := by decide
  have hden : (TWO.mul y).num ≠ 0 := two_mul_num_ne_zero y hy hynum
  have hdenv : (TWO.mul y).Valid := (mul_spec TWO y hTWOv hy).2
  have hnumv : (THREE.mul (x.powAux 2)).Valid :=
    (mul_spec THREE _ hTHREEv (powAux_valid x 2)).2
  set inv := (⟨modpow (TWO.mul y).num (P - 2) P⟩ : FieldElement) with hinv
  have hdiv : FieldElement.div (THREE.mul (x.powAux 2)) (TWO.mul y) =
      .ok ((THREE.mul (x.powAux 2)).mul inv) := div_ok _ _ hden
  set s := (THREE.mul (x.powAux 2)).mul inv with hs
  have hsv : s.Valid := (mul_spec _ _ hnumv (inverse_valid _)).2
  set x3 := (s.powAux 2).sub (x.add x) with hx3
  set y3 := (s.mul (x.sub x3)).sub y with hy3
  have hx3v : x3.Valid := (sub_spec _ _ (powAux_valid s 2) ((add_spec x x hx hx).2)).2
  have hy3v : y3.Valid :=
    (sub_spec _ _ ((mul_spec s _ hsv ((sub_spec x x3 hx hx3v).2)).2) hy).2
  have h2Y : (2 : ZMod Pn) * toZMod y ≠ 0 := by
    intro hcon
    apply toZMod_ne_zero _ hdenv hden
    rw [toZMod_mul TWO y hTWOv hy, toZMod_TWO]
    exact hcon
  have hYne : toZMod y ≠ W.negY (toZMod x) (toZMod y) := by
    rw [W_negY]
    intro hcon
    exact h2Y (by linear_combination hcon)
  have hEq : W.Equation (toZMod x) (toZMod y) := (curve_check_iff x y hx hy).mp hc
  have hsφ0 : toZMod s = 3 * toZMod x ^ 2 * (2 * toZMod y)⁻¹ := by
    rw [hs, toZMod_mul _ _ hnumv (inverse_valid _),
      toZMod_inverse _ hdenv hden, toZMod_mul THREE _ hTHREEv (powAux_valid x 2),
      toZMod_THREE, toZMod_powAux_two x hx, toZMod_mul TWO y hTWOv hy, toZMod_TWO]
  have hL : W.slope (toZMod x) (toZMod x) (toZMod y) (toZMod y) =
      3 * toZMod x ^ 2 * (2 * toZMod y)⁻¹ := by
    rw [WeierstrassCurve.Affine.slope_of_Y_ne rfl hYne]
    show (3 * toZMod x ^ 2 + 2 * 0 * toZMod x + 0 - 0 * toZMod y) /
        (toZMod y - W.negY (toZMod x) (toZMod y)) = _
    rw [W_negY, div_eq_mul_inv]
    have hnum9 : (3 * toZMod x ^ 2 + 2 * 0 * toZMod x + 0 - 0 * toZMod y) =
        3 * toZMod x ^ 2 := by ring
    have hden9 : toZMod y - -toZMod y = 2 * toZMod y := by ring
    rw [hnum9, hden9]
  have hsφ : toZMod s = W.slope (toZMod x) (toZMod x) (toZMod y) (toZMod y) := by
    rw [hsφ0, hL]
  have hprod : toZMod s * (2 * toZMod y) = 3 * toZMod x ^ 2 := by
    rw [hsφ0]
    exact inv_mul_cancel_right₀ h2Y _
  have hx3φ' : toZMod x3 = toZMod s ^ 2 - 2 * toZMod x := by
    rw [hx3, toZMod_sub _ _ (powAux_valid s 2) ((add_spec x x hx hx).2),
      toZMod_powAux_two s hsv, toZMod_add x x hx hx]
    ring
  have hy3φ' : toZMod y3 = toZMod s * (toZMod x - toZMod x3) - toZMod y := by
    rw [hy3, toZMod_sub _ _ ((mul_spec s _ hsv ((sub_spec x x3 hx hx3v).2)).2) hy,
      toZMod_mul s _ hsv ((sub_spec x x3 hx hx3v).2), toZMod_sub x x3 hx hx3v]
  have hx3φ : toZMod x3 = W.addX (toZMod x) (toZMod x)
      (W.slope (toZMod x) (toZMod x) (toZMod y) (toZMod y)) := by
    rw [hx3φ', hsφ, W_addX]
    ring
  have hy3φ : toZMod y3 = W.addY (toZMod x) (toZMod x) (toZMod y)
      (W.slope (toZMod x) (toZMod x) (toZMod y) (toZMod y)) := by
    rw [W_addY, hy3φ', hx3φ, hsφ]
  refine ⟨s, x3, y3, ?_, ⟨hx3v, hy3v, ?_⟩, hsv, hprod, hx3φ', hy3φ'⟩
  · rw [point_double_def x y hy0, hdiv]
    rfl
  · rw [curve_check_iff x3 y3 hx3v hy3v, hx3φ, hy3φ]
    exact WeierstrassCurve.Affine.equation_add hEq hEq (fun _ => hYne)

theorem point_add_distinct_def (x1 y1 x2 y2 : FieldElement) :
    Point.point_add_distinct (.Coordinates x1 y1) (.Coordinates x2 y2) =
      (FieldElement.div (y2.sub y1) (x2.sub x1)).bind fun s =>
        .ok (.Coordinates (((s.powAux 2).sub x1).sub x2)
          ((s.mul (x1.sub (((s.powAux 2).sub x1).sub x2))).sub y1)) := rfl

theorem add_distinct_ok_valid (x1 y1 x2 y2 : FieldElement)
    (hx1 : x1.Valid) (hy1 : y1.Valid) (hx2 : x2.Valid) (hy2 : y2.Valid)
    (hc1 : y1.powAux 2 = (x1.powAux 3).add SECP256K1_B)
    (hc2 : y2.powAux 2 = (x2.powAux 3).add SECP256K1_B)
    (hne : x1 ≠ x2) :
    ∃ s x3 y3 : FieldElement,
      Point.point_add_distinct (.Coordinates x1 y1) (.Coordinates x2 y2) =
        .ok (.Coordinates x3 y3) ∧
      (Point.Coordinates x3 y3).Valid ∧ s.Valid ∧
      toZMod s * (toZMod x2 - toZMod x1) = toZMod y2 - toZMod y1 ∧
      toZMod x3 = toZMod s ^ 2 - toZMod x1 - toZMod x2 ∧
      toZMod y3 = toZMod s * (toZMod x1 - toZMod x3) - toZMod y1 := by
  haveI : Fact (Nat.Prime Pn) := ⟨prime_P⟩
  have hden : (x2.sub x1).num ≠ 0 := sub_num_ne_zero x1 x2 hx1 hx2 hne
  have hdenv : (x2.sub x1).Valid := (sub_spec x2 x1 hx2 hx1).2
  have hnumv : (y2.sub y1).Valid := (sub_spec y2 y1 hy2 hy1).2
  set inv := (⟨modpow (x2.sub x1).num (P - 2) P⟩ : FieldElement) with hinv
  have hdiv : FieldElement.div (y2.sub y1) (x2.sub x1) =
      .ok ((y2.sub y1).mul inv) := div_ok _ _ hden
  set s := (y2.sub y1).mul inv with hs
  have hsv : s.Valid := (mul_spec _ _ hnumv (inverse_valid _)).2
  set x3 := ((s.powAux 2).sub x1).sub x2 with hx3
  set y3 := (s.mul (x1.sub x3)).sub y1 with hy3
  have hx3v : x3.Valid := (sub_spec _ _ ((sub_spec _ _ (powAux_valid s 2) hx1).2) hx2).2
  have hy3v : y3.Valid :=
    (sub_spec _ _ ((mul_spec s _ hsv ((sub_spec x1 x3 hx1 hx3v).2)).2) hy1).2
  have hXne : toZMod x1 ≠ toZMod x2 := fun h => hne (toZMod_inj _ _ hx1 hx2 h)
  have h21 : toZMod x2 - toZMod x1 ≠ 0 := sub_ne_zero_of_ne (Ne.symm hXne)
  have h12 : toZMod x1 - toZMod x2 ≠ 0 := sub_ne_zero_of_ne hXne
  have hE1 : W.Equation (toZMod x1) (toZMod y1) := (curve_check_iff x1 y1 hx1 hy1).mp hc1
  have hE2 : W.Equation (toZMod x2) (toZMod y2) := (curve_check_iff x2 y2 hx2 hy2).mp hc2
  have hsφ0 : toZMod s =
      (toZMod y2 - toZMod y1) * (toZMod x2 - toZMod x1)⁻¹ := by
    rw [hs, toZMod_mul _ _ hnumv (inverse_valid _),
      toZMod_inverse _ hdenv hden, toZMod_sub y2 y1 hy2 hy1, toZMod_sub x2 x1 hx2 hx1]
  have hsφ : toZMod s = W.slope (toZMod x1) (toZMod x2) (toZMod y1) (toZMod y2) := by
    rw [hsφ0, WeierstrassCurve.Affine.slope_of_X_ne hXne]
    rw [div_eq_mul_inv]
    rw [← neg_sub (toZMod x2) (toZMod x1), ← neg_sub (toZMod y2) (toZMod y1)]
    rw [inv_neg]
    ring
  have hprod : toZMod s * (toZMod x2 - toZMod x1) = toZMod y2 - toZMod y1 := by
    rw [hsφ0]
    exact inv_mul_cancel_right₀ h21 _
  have hx3φ' : toZMod x3 = toZMod s ^ 2 - toZMod x1 - toZMod x2 := by
    rw [hx3, toZMod_sub _ _ ((sub_spec _ _ (powAux_valid s 2) hx1).2) hx2,
      toZMod_sub _ _ (powAux_valid s 2) hx1, toZMod_powAux_two s hsv]
  have hy3φ' : toZMod y3 = toZMod s * (toZMod x1 - toZMod x3) - toZMod y1 := by
    rw [hy3, toZMod_sub _ _ ((mul_spec s _ hsv ((sub_spec x1 x3 hx1 hx3v).2)).2) hy1,
      toZMod_mul s _ hsv ((sub_spec x1 x3 hx1 hx3v).2), toZMod_sub x1 x3 hx1 hx3v]
  have hx3φ : toZMod x3 = W.addX (toZMod x1) (toZMod x2)
      (W.slope (toZMod x1) (toZMod x2) (toZMod y1) (toZMod y2)) := by
    rw [hx3φ', hsφ, W_addX]
  have hy3φ : toZMod y3 = W.addY (toZMod x1) (toZMod x2) (toZMod y1)
      (W.slope (toZMod x1) (toZMod x2) (toZMod y1) (toZMod y2)) := by
    rw [W_addY, hy3φ', hx3φ, hsφ]
  refine ⟨s, x3, y3, ?_, ⟨hx3v, hy3v, ?_⟩, hsv, hprod, hx3φ', hy3φ'⟩
  · rw [point_add_distinct_def, hdiv]
    rfl
  · rw [curve_check_iff x3 y3 hx3v hy3v, hx3φ, hy3φ]
    exact WeierstrassCurve.Affine.equation_add hE1 hE2 (fun h => absurd h hXne)
/-! ### Totality and validity of `add` and scalar multiplication -/

theorem add_ok_valid (p q : Point) (hp : p.Valid) (hq : q.Valid) :
    ∃ r : Point, Point.add p q = .ok r ∧ r.Valid := by
  cases p with
  | Infinity =>
    refine ⟨q, ?_, hq⟩
    cases q <;> rfl
  | Coordinates x1 y1 =>
    cases q with
    | Infinity => exact ⟨.Coordinates x1 y1, rfl, hp⟩
    | Coordinates x2 y2 =>
      obtain ⟨hx1, hy1, hc1⟩ := hp
      obtain ⟨hx2, hy2, hc2⟩ := hq
      show ∃ r, (if x1 = x2 then
          if y1 = y2 then Point.point_double (.Coordinates x1 y1)
          else .ok .Infinity
        else Point.point_add_distinct (.Coordinates x1 y1) (.Coordinates x2 y2)) =
          .ok r ∧ r.Valid
      by_cases hxe : x1 = x2
      · rw [if_pos hxe]
        by_cases hye : y1 = y2
        · rw [if_pos hye]
          by_cases hy0 : y1 = FieldElement.zero
          · refine ⟨.Infinity, ?_, trivial⟩
            show (if y1 = FieldElement.zero then Res.ok Point.Infinity else _) = _
            rw [if_pos hy0]
          · obtain ⟨s, x3, y3, heq, hv, _⟩ := double_ok_valid x1 y1 hx1 hy1 hc1 hy0
            exact ⟨.Coordinates x3 y3, heq, hv⟩
        · rw [if_neg hye]
          exact ⟨.Infinity, rfl, trivial⟩
      · rw [if_neg hxe]
        obtain ⟨s, x3, y3, heq, hv, _⟩ :=
          add_distinct_ok_valid x1 y1 x2 y2 hx1 hy1 hx2 hy2 hc1 hc2 hxe
        exact ⟨.Coordinates x3 y3, heq, hv⟩

theorem scalarLoop_ok_valid (k : ℕ) :
    ∀ result current : Point, result.Valid → current.Valid →
      ∃ r, Point.scalarLoop result current k = .ok r ∧ r.Valid := by
  induction k using Nat.strong_induction_on with
  | _ k ih =>
    intro result current h1 h2
    rw [Point.scalarLoop]
    by_cases hk : 0 < k
    · rw [if_pos hk]
      have hstep : ∃ r1, (if k % 2 = 1 then Point.add result current
          else .ok result) = .ok r1 ∧ r1.Valid := by
        by_cases hb : k % 2 = 1
        · rw [if_pos hb]
          exact add_ok_valid result current h1 h2
        · rw [if_neg hb]
          exact ⟨result, rfl, h1⟩
      obtain ⟨r1, hr1, hv1⟩ := hstep
      obtain ⟨c1, hcc, hvc⟩ := add_ok_valid current current h2 h2
      rw [hr1, hcc]
      show ∃ r, Point.scalarLoop r1 c1 (k / 2) = .ok r ∧ r.Valid
      exact ih (k / 2) (Nat.div_lt_self hk (by omega)) r1 c1 hv1 hvc
    · rw [if_neg hk]
      exact ⟨result, rfl, h1⟩

theorem mul_ok_valid (p : Point) (hp : p.Valid) (k : ℤ) :
    ∃ r, Point.mul p k = .ok r ∧ r.Valid := by
  unfold Point.mul
  exact scalarLoop_ok_valid _ _ _ trivial hp

/-! ### Remaining facts about scalar reduction -/

theorem tmod_neg_dividend (a b : ℤ) : Int.tmod (-a) b = -(Int.tmod a b) := by
  rw [Int.tmod_def, Int.tmod_def, Int.neg_tdiv]
  ring

theorem neg_lt_tmod (a b : ℤ) (hb : 0 < b) : -b < Int.tmod a b := by
  by_cases ha : 0 ≤ a
  · have := Int.tmod_nonneg b ha
    omega
  · have h1 : Int.tmod a b = -(Int.tmod (-a) b) := by
    
      rw [← tmod_neg_dividend, neg_neg]
  
    have h2 : Int.tmod (-a) b < b := Int.tmod_lt_of_pos _ hb
    omega

theorem tmod_emod (a b : ℤ) : Int.tmod a b % b = a % b := by
  rw [Int.tmod_def, Int.sub_eq_add_neg, mul_comm, ← neg_mul, mul_comm,
    Int.add_mul_emod_self_left]

theorem scalar_reduce_eq (k : ℤ) :
    (if Int.tmod k SECP256K1_N < 0 then Int.tmod k SECP256K1_N + SECP256K1_N
     else Int.tmod k SECP256K1_N) = k % SECP256K1_N := by
  have hN := N_pos
  have htm : Int.tmod k SECP256K1_N % SECP256K1_N = k % SECP256K1_N := tmod_emod k _
  have hub : Int.tmod k SECP256K1_N < SECP256K1_N := Int.tmod_lt_of_pos k hN
  have hlb : -SECP256K1_N < Int.tmod k SECP256K1_N := neg_lt_tmod k _ hN
  split
  case isTrue h =>
    have heq : (Int.tmod k SECP256K1_N + SECP256K1_N) % SECP256K1_N =
        k % SECP256K1_N := by
      rw [← htm]
      conv_lhs => rw [show Int.tmod k SECP256K1_N + SECP256K1_N
        = Int.tmod k SECP256K1_N + SECP256K1_N * 1 by ring]
      rw [Int.add_mul_emod_self_left]
    rw [← heq, Int.emod_eq_of_lt (by omega) (by omega)]
  case isFalse h =>
    rw [← htm, Int.emod_eq_of_lt (by omega) (by omega)]

theorem mul_scalarLoop_def (p : Point) (k : ℤ) : Point.mul p k =
    Point.scalarLoop .Infinity p
      ((if Int.tmod k SECP256K1_N < 0 then Int.tmod k SECP256K1_N + SECP256K1_N
        else Int.tmod k SECP256K1_N).toNat) := rfl

theorem mul_emod_def (p : Point) (k : ℤ) :
    Point.mul p k = Point.scalarLoop .Infinity p ((k % SECP256K1_N).toNat) := by
  rw [mul_scalarLoop_def, scalar_reduce_eq]

theorem scalarLoop_infinity (m : ℕ) :
    Point.scalarLoop .Infinity .Infinity m = .ok .Infinity := by
  induction m using Nat.strong_induction_on with
  | _ m ih =>
    rw [Point.scalarLoop]
    by_cases hm : 0 < m
    · rw [if_pos hm]
      have hstep : (if m % 2 = 1 then Point.add .Infinity .Infinity
          else .ok .Infinity) = (.ok .Infinity : Res Point) := by
        split <;> rfl
      rw [hstep]
      show Point.scalarLoop .Infinity .Infinity (m / 2) = .ok .Infinity
      exact ih _ (Nat.div_lt_self hm (by omega))
    · rw [if_neg hm]

/-! ### The claims -/

/-- Claim C1, corrected.  The claim states that `inverse(a)` with `a.num = 0`
and `div(b, a)` signal `DivisionByZero` as a recoverable failure result and
are not implemented as an unrecoverable abort.  In the code both abort with
a panic (and the test suite asserts that panic), so the claim as stated is
false; this counterexample exhibits the panic at the concrete inputs
`a = 0`, `b = 42`. -/
theorem C1_counterexample :
    FieldElement.inverse FieldElement.zero =
      .panic "Division by zero: no multiplicative inverse exists" ∧
    FieldElement.div ⟨42⟩ FieldElement.zero =
      .panic "Division by zero: no multiplicative inverse exists" := by
  constructor <;> rfl

/-- Claim C1, amended.  For every FieldElement `a` with `a.num = 0` and any
FieldElement `b`, `inverse(a)` and `div(b, a)` fail by an unrecoverable
abort (a panic with the division-by-zero message), not by returning a
recoverable error result. -/
theorem C1_amended (a b : FieldElement) (h : a.num = 0) :
    a.inverse = .panic "Division by zero: no multiplicative inverse exists" ∧
    FieldElement.div b a =
      .panic "Division by zero: no multiplicative inverse exists" := by
  have h1 : a.inverse =
      .panic "Division by zero: no multiplicative inverse exists" := by
    unfold FieldElement.inverse
    rw [if_pos h]
  refine ⟨h1, ?_⟩
  unfold FieldElement.div
  rw [h1]
  rfl

/-- Witness for the amended claim C1, at `a = zero`, `b = 42`. -/
theorem C1_witness :
    FieldElement.zero.num = 0 ∧
      (FieldElement.inverse FieldElement.zero =
        .panic "Division by zero: no multiplicative inverse exists" ∧
      FieldElement.div ⟨42⟩ FieldElement.zero =
        .panic "Division by zero: no multiplicative inverse exists") :=
  ⟨rfl, C1_amended FieldElement.zero ⟨42⟩ rfl⟩

/-- Claim C2, code bug.  The claim (and the code's own documentation of the
`FieldElement` invariant `0 <= num < p`) says `scalar_mul` reduces its
result into `[0, p)` for an arbitrary, possibly negative, integer `k`.
The code computes `(k * a.num) % p` with Rust's truncated `%`, so for
`k = -1`, `a = 1` the result is the FieldElement with `num = -1`, which
violates the invariant. -/
theorem C2_scalar_mul_negative_breaks_invariant :
    (scalarMulFE (-1) ⟨1⟩).num = -1 ∧ ¬ (scalarMulFE (-1) ⟨1⟩).Valid := by
  constructor
  · decide
  · decide

/-- Claim C3: for valid points `p`, `q` and any integer `k`, `add p q` and
`scalar_mul p k` are total: they return a value and never surface a
division error (or any other error). -/
theorem C3_add_scalar_mul_total (p q : Point) (hp : p.Valid) (hq : q.Valid)
    (k : ℤ) :
    (∃ r, Point.add p q = .ok r) ∧ (∃ r, Point.mul p k = .ok r) := by
  obtain ⟨r1, h1, _⟩ := add_ok_valid p q hp hq
  obtain ⟨r2, h2, _⟩ := mul_ok_valid p hp k
  exact ⟨⟨r1, h1⟩, ⟨r2, h2⟩⟩

/-- Witness for claim C3 at `p = q = G`, `k = 5`. -/
theorem C3_witness :
    Point.Valid G ∧
      ((∃ r, Point.add G G = .ok r) ∧ (∃ r, Point.mul G 5 = .ok r)) :=
  ⟨by decide, C3_add_scalar_mul_total G G (by decide) (by decide) 5⟩

/-- Claim C9: the group law is closed over valid points: whenever `add` (or
`scalar_mul`) of valid points produces a coordinate point `(x, y)`,
`Point::new (some x) (some y)` succeeds with exactly that point. -/
theorem C9_closure (p q : Point) (hp : p.Valid) (hq : q.Valid) :
    (∀ x y : FieldElement, Point.add p q = .ok (.Coordinates x y) →
      Point.new (some x) (some y) = .ok (.Coordinates x y)) ∧
    (∀ (k : ℤ) (x y : FieldElement), Point.mul p k = .ok (.Coordinates x y) →
      Point.new (some x) (some y) = .ok (.Coordinates x y)) := by
  have hnew : ∀ x y : FieldElement, (Point.Coordinates x y).Valid →
      Point.new (some x) (some y) = .ok (.Coordinates x y) := by
    intro x y hv
    obtain ⟨_, _, hcheck⟩ := hv
    show (if y.powAux 2 = (x.powAux 3).add SECP256K1_B
      then Res.ok (Point.Coordinates x y) else _) = _
    rw [if_pos hcheck]
  constructor
  · intro x y heq
    obtain ⟨r, hr, hv⟩ := add_ok_valid p q hp hq
    have h2 : Res.ok r = Res.ok (Point.Coordinates x y) := hr.symm.trans heq
    have h3 : r = Point.Coordinates x y := by injection h2
    exact hnew x y (h3 ▸ hv)
  · intro k x y heq
    obtain ⟨r, hr, hv⟩ := mul_ok_valid p hp k
    have h2 : Res.ok r = Res.ok (Point.Coordinates x y) := hr.symm.trans heq
    have h3 : r = Point.Coordinates x y := by injection h2
    exact hnew x y (h3 ▸ hv)

/-- Witness for claim C9: `G + G = 2G` and `Point::new` accepts the
coordinates of `2G`. -/
theorem C9_witness :
    Point.new
        (some ⟨0xc6047f9441ed7d6d3045406e95c07cd85c778e4b8cef3ca7abac09b95c709ee5⟩)
        (some ⟨0x1ae168fea63dc339a3c58419466ceaeef7f632653266d0e1236431a950cfe52a⟩) =
      .ok (.Coordinates
        ⟨0xc6047f9441ed7d6d3045406e95c07cd85c778e4b8cef3ca7abac09b95c709ee5⟩
        ⟨0x1ae168fea63dc339a3c58419466ceaeef7f632653266d0e1236431a950cfe52a⟩) :=
  (C9_closure G G (by decide) (by decide)).1 _ _ (by decide)

/-- Claim C5: scalar multiplication reduces the scalar modulo the group
order `N` first: `k·P` equals `k'·P` for the representative `k' = k mod N`
in `[0, N)`; in particular `0·P = Infinity` for every point, `N·G =
Infinity`, `(-1)·G = (N-1)·G`, and `k·Infinity = Infinity` for every `k`. -/
theorem C5_scalar_mod_order :
    (∀ (p : Point) (k : ℤ), Point.mul p k = Point.mul p (k % SECP256K1_N)) ∧
    (∀ p : Point, Point.mul p 0 = .ok .Infinity) ∧
    Point.mul G SECP256K1_N = .ok .Infinity ∧
    Point.mul G (-1) = Point.mul G (SECP256K1_N - 1) ∧
    (∀ k : ℤ, Point.mul .Infinity k = .ok .Infinity) := by
  have hN := N_pos
  refine ⟨?_, ?_, ?_, ?_, ?_⟩
  · intro p k
    rw [mul_emod_def, mul_emod_def, Int.emod_emod_of_dvd k dvd_rfl]
  · intro p
    rw [mul_emod_def]
    have h0 : ((0 : ℤ) % SECP256K1_N).toNat = 0 := by decide
    rw [h0, Point.scalarLoop]
    norm_num
  · rw [mul_emod_def]
    have h0 : (SECP256K1_N % SECP256K1_N).toNat = 0 := by decide
    rw [h0, Point.scalarLoop]
    norm_num
  · rw [mul_emod_def, mul_emod_def]
    have h1 : ((-1 : ℤ) % SECP256K1_N).toNat =
        ((SECP256K1_N - 1) % SECP256K1_N).toNat := by decide
    rw [h1]
  · intro k
    rw [mul_emod_def]
    exact scalarLoop_infinity _

/-- Claim C6: the group identity laws of `add`: `P + Infinity = P` and
`Infinity + P = P` for every point; `Infinity + Infinity = Infinity`;
`P + (-P) = Infinity` for every valid coordinate point, where `-P` has the
negated `y` coordinate; doubling a point with `y = 0` yields `Infinity`;
and `add` is commutative on valid points. -/
theorem C6_group_identities :
    (∀ p : Point, Point.add p .Infinity = .ok p ∧ Point.add .Infinity p = .ok p) ∧
    Point.add .Infinity .Infinity = .ok .Infinity ∧
    (∀ x y : FieldElement, (Point.Coordinates x y).Valid →
      Point.add (.Coordinates x y) (.Coordinates x y.negate) = .ok .Infinity) ∧
    (∀ x : FieldElement,
      Point.add (.Coordinates x FieldElement.zero)
        (.Coordinates x FieldElement.zero) = .ok .Infinity) ∧
    (∀ p q : Point, p.Valid → q.Valid → Point.add p q = Point.add q p) := by
  refine ⟨?_, rfl, ?_, ?_, ?_⟩
  · intro p
    cases p <;> exact ⟨rfl, rfl⟩
  · intro x y hv
    obtain ⟨hx, hy, _⟩ := hv
    show (if x = x then
        (if y = y.negate then Point.point_double (.Coordinates x y)
         else Res.ok Point.Infinity) else
        Point.point_add_distinct (.Coordinates x y) (.Coordinates x y.negate)) = _
    rw [if_pos rfl]
    by_cases hne : y = y.negate
    · rw [if_pos hne]
      have hnum : y.num = (y.negate).num := congrArg FieldElement.num hne
      have hnn := (negate_spec y hy).1
      have hzero : y.num = 0 := by
        rw [hnn] at hnum
        by_cases h0 : y.num = 0
        · exact h0
        · exfalso
          have hPo : P % 2 = 1 := by decide
          obtain ⟨hy0, hy1⟩ := hy
          have hneg : (-y.num) % P = P - y.num := by
            have hsplit : -y.num = (P - y.num) + P * (-1) := by ring
            rw [hsplit, Int.add_mul_emod_self_left,
              Int.emod_eq_of_lt (by omega) (by omega)]
          rw [hneg] at hnum
          omega
      have hyz : y = FieldElement.zero := by
        cases y
        exact congrArg FieldElement.mk hzero
      show (if y = FieldElement.zero then Res.ok Point.Infinity else _) = _
      rw [if_pos hyz]
    · rw [if_neg hne]
  · intro x
    show (if x = x then
        (if FieldElement.zero = FieldElement.zero then
          Point.point_double (.Coordinates x FieldElement.zero)
         else Res.ok Point.Infinity) else
        Point.point_add_distinct (.Coordinates x FieldElement.zero)
          (.Coordinates x FieldElement.zero)) = .ok .Infinity
    rw [if_pos rfl, if_pos rfl]
    show (if FieldElement.zero = FieldElement.zero then Res.ok Point.Infinity
      else (FieldElement.div (THREE.mul (x.powAux 2)) (TWO.mul FieldElement.zero)).bind
        fun s => Res.ok (Point.Coordinates ((s.powAux 2).sub (x.add x))
          ((s.mul (x.sub ((s.powAux 2).sub (x.add x)))).sub FieldElement.zero))) =
      Res.ok Point.Infinity
    rw [if_pos rfl]
  · intro p q hp hq
    cases p with
    | Infinity => cases q <;> rfl
    | Coordinates x1 y1 =>
      cases q with
      | Infinity => rfl
      | Coordinates x2 y2 =>
        obtain ⟨hx1, hy1, hc1⟩ := hp
        obtain ⟨hx2, hy2, hc2⟩ := hq
        by_cases hxe : x1 = x2
        · subst hxe
          by_cases hye : y1 = y2
          · subst hye
            rfl
          · show (if x1 = x1 then (if y1 = y2 then _ else Res.ok Point.Infinity)
              else _) = (if x1 = x1 then (if y2 = y1 then _ else Res.ok Point.Infinity)
              else _)
            rw [if_pos rfl, if_pos rfl, if_neg hye, if_neg (Ne.symm hye)]
        · haveI : Fact (Nat.Prime Pn) := ⟨prime_P⟩
          obtain ⟨s, x3, y3, heq, hv, hsv, hprod, hx3φ, hy3φ⟩ :=
            add_distinct_ok_valid x1 y1 x2 y2 hx1 hy1 hx2 hy2 hc1 hc2 hxe
          obtain ⟨s', x3', y3', heq', hv', hsv', hprod', hx3φ', hy3φ'⟩ :=
            add_distinct_ok_valid x2 y2 x1 y1 hx2 hy2 hx1 hy1 hc2 hc1 (Ne.symm hxe)
          show (if x1 = x2 then _ else
              Point.point_add_distinct (.Coordinates x1 y1) (.Coordinates x2 y2)) =
            (if x2 = x1 then _ else
              Point.point_add_distinct (.Coordinates x2 y2) (.Coordinates x1 y1))
          rw [if_neg hxe, if_neg (Ne.symm hxe), heq, heq']
          have hXne : toZMod x1 ≠ toZMod x2 := fun h => hxe (toZMod_inj _ _ hx1 hx2 h)
          have h21 : toZMod x2 - toZMod x1 ≠ 0 := sub_ne_zero_of_ne (Ne.symm hXne)
          have hss : toZMod s' = toZMod s := by
            have hdiff : (toZMod s - toZMod s') * (toZMod x2 - toZMod x1) = 0 := by
              linear_combination hprod + hprod'
            rcases mul_eq_zero.mp hdiff with h | h
            · exact (sub_eq_zero.mp h).symm
            · exact absurd h h21
          have hx3e : x3 = x3' := by
            apply toZMod_inj _ _ hv.1 hv'.1
            rw [hx3φ, hx3φ', hss]
            ring
          have hy3e : y3 = y3' := by
            apply toZMod_inj _ _ hv.2.1 hv'.2.1
            rw [hy3φ, hy3φ', hss, ← hx3e]
            linear_combination (-1 : ZMod Pn) * hprod
          rw [hx3e, hy3e]

/-- Witness for claim C6 at the generator: `G` is valid, `G + (-G)` is
`Infinity`, and `add` commutes on the pair `(G, Infinity)`. -/
theorem C6_witness :
    Point.Valid G ∧
      Point.add G (.Coordinates
        ⟨0x79be667ef9dcbbac55a06295ce870b07029bfcdb2dce28d959f2815b16f81798⟩
        (FieldElement.negate
          ⟨0x483ada7726a3c4655da4fbfc0e1108a8fd17b448a68554199c47d08ffb10d4b8⟩)) =
        .ok .Infinity ∧
      Point.add G .Infinity = Point.add .Infinity G := by
  refine ⟨by decide, C6_group_identities.2.2.1 _ _ (by decide), ?_⟩
  exact C6_group_identities.2.2.2.2 G .Infinity (by decide) trivial

/-! ### Fermat consequences used by claims C7 and C10 -/

theorem modpow_zero (b : ℤ) : modpow b 0 P = 1 := rfl

theorem fermat_int (a : FieldElement) (ha : a.Valid) (h0 : a.num ≠ 0) :
    a.num ^ (Pn - 1) % P = 1 := by
  haveI : Fact (Nat.Prime Pn) := ⟨prime_P⟩
  have hz := ZMod.pow_card_sub_one_eq_one (toZMod_ne_zero a ha h0)
  have hcast : ((1 : ℤ) : ZMod Pn) = ((a.num ^ (Pn - 1) : ℤ) : ZMod Pn) := by
    push_cast
    exact hz.symm
  have h2 := eq_emod_of_cast_eq (by norm_num) (by decide) hcast
  exact h2.symm

theorem powAux_eq (a : FieldElement) (e : ℤ) (ha : 0 ≤ a.num) (he : 0 ≤ e) :
    a.powAux e = ⟨a.num ^ ((e % (P - 1)).toNat) % P⟩ := by
  cases hab : a.powAux e
  have h := powAux_spec a e ha he
  rw [hab] at h
  exact congrArg FieldElement.mk h

/-- Claim C4: for valid coordinate points, `add` computes exactly the
group-law formulas: doubling (inputs equal, `y ≠ 0`) returns `x3 = s^2 -
2x`, `y3 = s(x - x3) - y` for the slope `s` with `s·(2y) ≡ 3x^2 (mod p)`;
distinct-`x` addition returns `x3 = s^2 - x1 - x2`, `y3 = s(x1 - x3) - y1`
for the slope `s` with `s·(x2 - x1) ≡ y2 - y1 (mod p)`. -/
theorem C4_add_formulas :
    (∀ x y : FieldElement, (Point.Coordinates x y).Valid → y ≠ FieldElement.zero →
      ∃ s x3 y3 : ℤ,
        0 ≤ s ∧ s < P ∧
        s * (2 * y.num) % P = 3 * x.num ^ 2 % P ∧
        x3 = (s ^ 2 - 2 * x.num) % P ∧
        y3 = (s * (x.num - x3) - y.num) % P ∧
        Point.add (.Coordinates x y) (.Coordinates x y) =
          .ok (.Coordinates ⟨x3⟩ ⟨y3⟩)) ∧
    (∀ x1 y1 x2 y2 : FieldElement, (Point.Coordinates x1 y1).Valid →
        (Point.Coordinates x2 y2).Valid → x1 ≠ x2 →
      ∃ s x3 y3 : ℤ,
        0 ≤ s ∧ s < P ∧
        s * (x2.num - x1.num) % P = (y2.num - y1.num) % P ∧
        x3 = (s ^ 2 - x1.num - x2.num) % P ∧
        y3 = (s * (x1.num - x3) - y1.num) % P ∧
        Point.add (.Coordinates x1 y1) (.Coordinates x2 y2) =
          .ok (.Coordinates ⟨x3⟩ ⟨y3⟩)) := by
  constructor
  · intro x y hv hy0
    obtain ⟨hx, hy, hc⟩ := hv
    obtain ⟨s, x3, y3, heq, hv3, hsv, hprod, hx3φ, hy3φ⟩ :=
      double_ok_valid x y hx hy hc hy0
    refine ⟨s.num, x3.num, y3.num, hsv.1, hsv.2, ?_, ?_, ?_, ?_⟩
    · have hcast : ((s.num * (2 * y.num) : ℤ) : ZMod Pn) =
          ((3 * x.num ^ 2 : ℤ) : ZMod Pn) := by
        push_cast
        exact hprod
      have h2 := (ZMod.intCast_eq_intCast_iff' _ _ _).mp hcast
      rwa [P_cast] at h2
    · apply eq_emod_of_cast_eq hv3.1.1 hv3.1.2
      push_cast
      exact hx3φ
    · apply eq_emod_of_cast_eq hv3.2.1.1 hv3.2.1.2
      push_cast
      exact hy3φ
    · show (if x = x then (if y = y then Point.point_double (.Coordinates x y)
        else Res.ok .Infinity) else
        Point.point_add_distinct (.Coordinates x y) (.Coordinates x y)) =
        .ok (.Coordinates ⟨x3.num⟩ ⟨y3.num⟩)
      rw [if_pos rfl, if_pos rfl, heq]
  · intro x1 y1 x2 y2 hv1 hv2 hne
    obtain ⟨hx1, hy1, hc1⟩ := hv1
    obtain ⟨hx2, hy2, hc2⟩ := hv2
    obtain ⟨s, x3, y3, heq, hv3, hsv, hprod, hx3φ, hy3φ⟩ :=
      add_distinct_ok_valid x1 y1 x2 y2 hx1 hy1 hx2 hy2 hc1 hc2 hne
    refine ⟨s.num, x3.num, y3.num, hsv.1, hsv.2, ?_, ?_, ?_, ?_⟩
    · have hcast : ((s.num * (x2.num - x1.num) : ℤ) : ZMod Pn) =
          ((y2.num - y1.num : ℤ) : ZMod Pn) := by
        push_cast
        exact hprod
      have h2 := (ZMod.intCast_eq_intCast_iff' _ _ _).mp hcast
      rwa [P_cast] at h2
    · apply eq_emod_of_cast_eq hv3.1.1 hv3.1.2
      push_cast
      exact hx3φ
    · apply eq_emod_of_cast_eq hv3.2.1.1 hv3.2.1.2
      push_cast
      exact hy3φ
    · show (if x1 = x2 then (if y1 = y2 then Point.point_double (.Coordinates x1 y1)
        else Res.ok .Infinity) else
        Point.point_add_distinct (.Coordinates x1 y1) (.Coordinates x2 y2)) =
        .ok (.Coordinates ⟨x3.num⟩ ⟨y3.num⟩)
      rw [if_neg hne, heq]

/-- Witness for claim C4, doubling the generator. -/
theorem C4_witness :
    (Point.Coordinates
      ⟨0x79be667ef9dcbbac55a06295ce870b07029bfcdb2dce28d959f2815b16f81798⟩
      ⟨0x483ada7726a3c4655da4fbfc0e1108a8fd17b448a68554199c47d08ffb10d4b8⟩).Valid ∧
    (⟨0x483ada7726a3c4655da4fbfc0e1108a8fd17b448a68554199c47d08ffb10d4b8⟩ :
      FieldElement) ≠ FieldElement.zero ∧
    (∃ s x3 y3 : ℤ,
      0 ≤ s ∧ s < P ∧
      s * (2 * (0x483ada7726a3c4655da4fbfc0e1108a8fd17b448a68554199c47d08ffb10d4b8 : ℤ))
          % P =
        3 * (0x79be667ef9dcbbac55a06295ce870b07029bfcdb2dce28d959f2815b16f81798 : ℤ) ^ 2
          % P ∧
      x3 = (s ^ 2 -
        2 * (0x79be667ef9dcbbac55a06295ce870b07029bfcdb2dce28d959f2815b16f81798 : ℤ)) % P ∧
      y3 = (s * ((0x79be667ef9dcbbac55a06295ce870b07029bfcdb2dce28d959f2815b16f81798 : ℤ)
        - x3) -
        (0x483ada7726a3c4655da4fbfc0e1108a8fd17b448a68554199c47d08ffb10d4b8 : ℤ)) % P ∧
      Point.add (.Coordinates
        ⟨0x79be667ef9dcbbac55a06295ce870b07029bfcdb2dce28d959f2815b16f81798⟩
        ⟨0x483ada7726a3c4655da4fbfc0e1108a8fd17b448a68554199c47d08ffb10d4b8⟩)
        (.Coordinates
        ⟨0x79be667ef9dcbbac55a06295ce870b07029bfcdb2dce28d959f2815b16f81798⟩
        ⟨0x483ada7726a3c4655da4fbfc0e1108a8fd17b448a68554199c47d08ffb10d4b8⟩) =
        .ok (.Coordinates ⟨x3⟩ ⟨y3⟩)) :=
  ⟨by decide, by decide, C4_add_formulas.1 _ _ (by decide) (by decide)⟩

/-- Claim C7: `pow(a, e)` computes modular exponentiation with Fermat
reduction of the exponent: for `e >= 0` it returns `a.num^(e mod (p-1))
mod p`; for `e < 0` it returns `inverse(a)` raised to `|e| mod (p-1)`;
consequently `a.pow(p-1) = 1`, `a.pow(0) = 1`, and `a.pow(-1) * a = 1`
for every non-zero `a`. -/
theorem C7_pow_semantics :
    (∀ (a : FieldElement) (e : ℤ), a.Valid → 0 ≤ e →
      a.pow e = .ok ⟨a.num ^ ((e % (P - 1)).toNat) % P⟩) ∧
    (∀ (a : FieldElement) (e : ℤ), a.Valid → e < 0 → a.num ≠ 0 →
      ∃ i, a.inverse = .ok i ∧
        a.pow e = .ok ⟨i.num ^ (((-e) % (P - 1)).toNat) % P⟩) ∧
    (∀ a : FieldElement, a.pow (P - 1) = .ok FieldElement.one) ∧
    (∀ a : FieldElement, a.pow 0 = .ok FieldElement.one) ∧
    (∀ a : FieldElement, a.Valid → a.num ≠ 0 →
      ∃ i, a.pow (-1) = .ok i ∧ i.mul a = FieldElement.one) := by
  have hP1 : (0 : ℤ) < P - 1 := by decide
  refine ⟨?_, ?_, ?_, ?_, ?_⟩
  · intro a e ha he
    unfold FieldElement.pow
    rw [if_neg (not_lt.mpr he), powAux_eq a e ha.1 he]
  · intro a e ha he h0
    refine ⟨⟨modpow a.num (P - 2) P⟩, inverse_ok a h0, ?_⟩
    unfold FieldElement.pow
    rw [if_pos he, inverse_ok a h0]
    show Res.ok ((⟨modpow a.num (P - 2) P⟩ : FieldElement).powAux
      (Int.tmod (-e) (P - 1))) = _
    rw [powAux_eq ⟨modpow a.num (P - 2) P⟩ (Int.tmod (-e) (P - 1))
      (modpow_nonneg _ _ _) (Int.tmod_nonneg (P - 1) (by omega))]
    have harg : Int.tmod (-e) (P - 1) % (P - 1) = (-e) % (P - 1) := by
      rw [Int.tmod_eq_emod (by omega) (by omega), Int.emod_emod_of_dvd _ dvd_rfl]
    rw [harg]
  · intro a
    unfold FieldElement.pow
    rw [if_neg (by decide)]
    unfold FieldElement.powAux
    rw [Int.tmod_self, modpow_zero]
    rfl
  · intro a
    unfold FieldElement.pow
    rw [if_neg (by decide)]
    unfold FieldElement.powAux
    rw [Int.zero_tmod, modpow_zero]
    rfl
  · intro a ha h0
    have hval := inverse_valid a
    refine ⟨⟨modpow a.num (P - 2) P⟩, ?_, ?_⟩
    · unfold FieldElement.pow
      rw [if_pos (by decide), inverse_ok a h0]
      show Res.ok ((⟨modpow a.num (P - 2) P⟩ : FieldElement).powAux
        (Int.tmod (-(-1)) (P - 1))) = _
      have harg : Int.tmod (-(-1 : ℤ)) (P - 1) = 1 := by decide
      rw [harg]
      unfold FieldElement.powAux
      have h1 : Int.tmod (1 : ℤ) (P - 1) = 1 := by decide
      rw [h1]
      have h2 : modpow (modpow a.num (P - 2) P) 1 P = modpow a.num (P - 2) P := by
        rw [modpow_eq _ _ _ (modpow_nonneg _ _ _) (by decide) P_pos (by decide)]
        simp only [Int.toNat_one, pow_one]
        exact Int.emod_eq_of_lt (modpow_nonneg _ _ _) (modpow_lt_P _ _)
      rw [h2]
    · have hm := (mul_spec ⟨modpow a.num (P - 2) P⟩ a hval ha).1
      have hmp : modpow a.num (P - 2) P = a.num ^ (Pn - 2) % P := by
        rw [modpow_eq _ _ _ ha.1 (by decide) P_pos (by decide)]
        have hh : (P - 2).toNat = Pn - 2 := by decide
        rw [hh]
      have hexp : a.num ^ (Pn - 2) * a.num = a.num ^ (Pn - 1) := by
        rw [← pow_succ]
        congr 1
      have hgoal : a.num ^ (Pn - 2) % P * a.num % P = 1 := by
        calc a.num ^ (Pn - 2) % P * a.num % P
            = a.num ^ (Pn - 2) % P % P * (a.num % P) % P := by rw [Int.mul_emod]
          _ = a.num ^ (Pn - 2) % P * (a.num % P) % P := by
              rw [Int.emod_emod_of_dvd _ dvd_rfl]
          _ = a.num ^ (Pn - 2) * a.num % P := by rw [← Int.mul_emod]
          _ = a.num ^ (Pn - 1) % P := by rw [hexp]
          _ = 1 := fermat_int a ha h0
      have hnum : (FieldElement.mul ⟨modpow a.num (P - 2) P⟩ a).num = 1 := by
        rw [hm, hmp]
        exact hgoal
      cases hab : FieldElement.mul ⟨modpow a.num (P - 2) P⟩ a
      rw [hab] at hnum
      exact congrArg FieldElement.mk hnum

/-- Witness for claim C7 at `a = 3`, `e = 5` and `e = -7`. -/
theorem C7_witness :
    ((⟨3⟩ : FieldElement).Valid ∧ (0 : ℤ) ≤ 5 ∧
      FieldElement.pow ⟨3⟩ 5 = .ok ⟨(3 : ℤ) ^ (((5 : ℤ) % (P - 1)).toNat) % P⟩) ∧
    ((-7 : ℤ) < 0 ∧ (⟨3⟩ : FieldElement).num ≠ 0 ∧
      ∃ i, FieldElement.inverse ⟨3⟩ = .ok i ∧
        FieldElement.pow ⟨3⟩ (-7) = .ok ⟨i.num ^ (((7 : ℤ) % (P - 1)).toNat) % P⟩) ∧
    (∃ i, FieldElement.pow ⟨3⟩ (-1) = .ok i ∧ i.mul ⟨3⟩ = FieldElement.one) :=
  ⟨⟨by decide, by decide, C7_pow_semantics.1 ⟨3⟩ 5 (by decide) (by decide)⟩,
   ⟨by decide, by decide,
     C7_pow_semantics.2.1 ⟨3⟩ (-7) (by decide) (by decide) (by decide)⟩,
   C7_pow_semantics.2.2.2.2 ⟨3⟩ (by decide) (by decide)⟩

/-- Claim C10: for the zero field element and every exponent `e` that is a
positive multiple of `p - 1`, `pow(zero, e)` returns one, not zero,
because the exponent is reduced mod `p - 1` before the base is examined;
the mathematical value `0^e mod p` is `0` for positive `e`, and zero is
the one input where the reduction changes the result: every non-zero valid
`a` still gets `a.pow(e) = a.num^e mod p`. -/
theorem C10_zero_pow_reduction (e k : ℤ) (hk : 0 < k) (he : e = k * (P - 1)) :
    FieldElement.pow FieldElement.zero e = .ok FieldElement.one ∧
    (0 : ℤ) ^ e.toNat % P = 0 ∧
    (∀ a : FieldElement, a.Valid → a.num ≠ 0 →
      a.pow e = .ok ⟨a.num ^ e.toNat % P⟩) := by
  have hP1 : (0 : ℤ) < P - 1 := by decide
  have hepos : 0 < e := by
    rw [he]
    exact mul_pos hk hP1
  have hered : e % (P - 1) = 0 := by
    rw [he]
    exact Int.mul_emod_left k (P - 1)
  have hcast : ((Pn - 1 : ℕ) : ℤ) = P - 1 := by decide
  have hetoNat : e.toNat = k.toNat * (Pn - 1) := by
    have h1 : ((e.toNat : ℕ) : ℤ) = ((k.toNat * (Pn - 1) : ℕ) : ℤ) := by
      rw [Int.toNat_of_nonneg hepos.le, Nat.cast_mul, Int.toNat_of_nonneg hk.le,
        hcast, he]
    exact_mod_cast h1
  refine ⟨?_, ?_, ?_⟩
  · unfold FieldElement.pow
    rw [if_neg (not_lt.mpr hepos.le)]
    unfold FieldElement.powAux
    rw [Int.tmod_eq_emod hepos.le (by omega), hered, modpow_zero]
    rfl
  · rw [zero_pow (by omega : e.toNat ≠ 0)]
    decide
  · intro a ha h0
    unfold FieldElement.pow
    rw [if_neg (not_lt.mpr hepos.le), powAux_eq a e ha.1 hepos.le, hered]
    have hlhs : a.num ^ ((0 : ℤ).toNat) % P = 1 % P := by
      norm_num
    have hrhs : a.num ^ e.toNat % P = 1 % P := by
      have hmod : a.num ^ (Pn - 1) % P = 1 % P := by
        rw [fermat_int a ha h0]
        decide
      have hm2 : (a.num ^ (Pn - 1)) ^ k.toNat % P = (1 : ℤ) ^ k.toNat % P :=
        Int.ModEq.pow k.toNat hmod
      rw [hetoNat, mul_comm, pow_mul, hm2, one_pow]
    rw [hlhs, ← hrhs]

/-- Witness for claim C10 at `e = p - 1`, `k = 1`, `a = 2`. -/
theorem C10_witness :
    ((0 : ℤ) < 1 ∧ P - 1 = 1 * (P - 1)) ∧
    FieldElement.pow FieldElement.zero (P - 1) = .ok FieldElement.one ∧
    (0 : ℤ) ^ (P - 1).toNat % P = 0 ∧
    FieldElement.pow ⟨2⟩ (P - 1) = .ok ⟨(2 : ℤ) ^ (P - 1).toNat % P⟩ := by
  have h := C10_zero_pow_reduction (P - 1) 1 (by decide) (by ring)
  exact ⟨⟨by decide, by ring⟩, h.1, h.2.1, h.2.2 ⟨2⟩ (by decide) (by decide)⟩

/-- Claim C8, corrected.  The claim asserts the `NotOnCurve` failure
message includes both sides of the failed curve equation.  At the input
`(1, 2)` the two sides are the field elements `4` (left, `y^2`) and `8`
(right, `x^3 + 7`), but the produced message contains neither the digit
`4` nor the digit `8` in any position, so no textual rendering of either
side (decimal or hex) can occur in it; the message shows the offending
point's coordinates instead. -/
theorem C8_counterexample :
    Point.new (some ⟨1⟩) (some ⟨2⟩) = .err (notOnCurveMsg ⟨1⟩ ⟨2⟩) ∧
    (FieldElement.mk 2).powAux 2 = ⟨4⟩ ∧
    ((FieldElement.mk 1).powAux 3).add SECP256K1_B = ⟨8⟩ ∧
    ¬ '4' ∈ (notOnCurveMsg ⟨1⟩ ⟨2⟩).toList ∧
    ¬ '8' ∈ (notOnCurveMsg ⟨1⟩ ⟨2⟩).toList := by
  refine ⟨by decide, by decide, by decide, by decide, by decide⟩

/-- Claim C8, amended.  `Point::new(None, None)` returns `Infinity`;
with both coordinates present it returns `Coordinates x y` exactly when
`y^2 ≡ x^3 + 7 (mod p)` and otherwise fails with the `NotOnCurve` message,
which displays the offending point's coordinates `x` and `y` (not the two
sides of the failed equation); with exactly one coordinate present it
fails with the `MismatchedCoordinates` message. -/
theorem C8_amended :
    Point.new none none = .ok .Infinity ∧
    (∀ x y : FieldElement, x.Valid → y.Valid →
      (y.num ^ 2 % P = (x.num ^ 3 + 7) % P →
        Point.new (some x) (some y) = .ok (.Coordinates x y)) ∧
      (y.num ^ 2 % P ≠ (x.num ^ 3 + 7) % P →
        Point.new (some x) (some y) =
          .err ("Point (" ++ x.display ++ ", " ++ y.display ++
            ") is not on the secp256k1 curve"))) ∧
    (∀ x : FieldElement, Point.new (some x) none = .err mismatchedMsg ∧
      Point.new none (some x) = .err mismatchedMsg) := by
  refine ⟨rfl, ?_, fun x => ⟨rfl, rfl⟩⟩
  intro x y hx hy
  haveI : Fact (Nat.Prime Pn) := ⟨prime_P⟩
  have hcast : (((y.num ^ 2 : ℤ)) : ZMod Pn) = ((x.num ^ 3 + 7 : ℤ) : ZMod Pn) ↔
      toZMod y ^ 2 = toZMod x ^ 3 + 7 := by
    unfold toZMod
    push_cast
    exact Iff.rfl
  have hiff : (y.powAux 2 = (x.powAux 3).add SECP256K1_B) ↔
      y.num ^ 2 % P = (x.num ^ 3 + 7) % P := by
    rw [curve_check_iff x y hx hy, W_equation_iff, ← hcast,
      ZMod.intCast_eq_intCast_iff', P_cast]
  constructor
  · intro h
    show (if y.powAux 2 = (x.powAux 3).add SECP256K1_B
      then Res.ok (Point.Coordinates x y) else Res.err (notOnCurveMsg x y)) = _
    rw [if_pos (hiff.mpr h)]
  · intro h
    show (if y.powAux 2 = (x.powAux 3).add SECP256K1_B
      then Res.ok (Point.Coordinates x y) else Res.err (notOnCurveMsg x y)) = _
    rw [if_neg (fun hcon => h (hiff.mp hcon))]
    rfl

/-- Witness for the amended claim C8, at the invalid point `(1, 2)` and the
valid generator coordinates. -/
theorem C8_witness :
    ((⟨1⟩ : FieldElement).Valid ∧ (⟨2⟩ : FieldElement).Valid ∧
      (2 : ℤ) ^ 2 % P ≠ ((1 : ℤ) ^ 3 + 7) % P ∧
      Point.new (some ⟨1⟩) (some ⟨2⟩) =
        .err ("Point (" ++ (⟨1⟩ : FieldElement).display ++ ", " ++
          (⟨2⟩ : FieldElement).display ++ ") is not on the secp256k1 curve")) ∧
    ((0x483ada7726a3c4655da4fbfc0e1108a8fd17b448a68554199c47d08ffb10d4b8 : ℤ) ^ 2 % P
        = ((0x79be667ef9dcbbac55a06295ce870b07029bfcdb2dce28d959f2815b16f81798 : ℤ) ^ 3
          + 7) % P ∧
      Point.new
        (some ⟨0x79be667ef9dcbbac55a06295ce870b07029bfcdb2dce28d959f2815b16f81798⟩)
        (some ⟨0x483ada7726a3c4655da4fbfc0e1108a8fd17b448a68554199c47d08ffb10d4b8⟩) =
        .ok (.Coordinates
          ⟨0x79be667ef9dcbbac55a06295ce870b07029bfcdb2dce28d959f2815b16f81798⟩
          ⟨0x483ada7726a3c4655da4fbfc0e1108a8fd17b448a68554199c47d08ffb10d4b8⟩)) :=
  ⟨⟨by decide, by decide, by decide,
    (C8_amended.2.1 ⟨1⟩ ⟨2⟩ (by decide) (by decide)).2 (by decide)⟩,
   ⟨by decide,
    (C8_amended.2.1 _ _ (by decide) (by decide)).1 (by decide)⟩⟩

/-- FieldElement.negate wraps its result in `new(..).unwrap()`; for a valid
input the `new` call indeed succeeds. -/
theorem negate_new_ok (a : FieldElement) (ha : a.Valid) :
    FieldElement.new ((a.negate).num) = .ok a.negate := by
  have hv := (negate_spec a ha).2
  unfold FieldElement.new
  rw [if_neg (by rw [not_or]; exact ⟨not_lt.mpr hv.1, not_le.mpr hv.2⟩)]

/-- Point.new accepts the generator coordinates and yields `G`. -/
theorem G_new_ok :
    Point.new
      (some ⟨0x79be667ef9dcbbac55a06295ce870b07029bfcdb2dce28d959f2815b16f81798⟩)
      (some ⟨0x483ada7726a3c4655da4fbfc0e1108a8fd17b448a68554199c47d08ffb10d4b8⟩) =
      .ok G := by
  decide

end Secp256k1
